import Mathlib

/-!
# go-cas: login redirect and service-ticket validation

A shallow embedding of `client.go`, `client_option.go`, `protocol_uri.go`,
`protocol_version.go` and `service_response.go`.

* Go strings and byte slices are lists of bytes (`Bytes`), a byte being a natural number below 256.
* The handlers returned by `RedirectToServer` and `ValidateServiceTicket` are functions from the
  inbound request (and the behaviour of the outside world, `Env`) to the ordered list of
  observable actions they perform (`Effect`): header writes, status writes, the outbound
  transport call, callback invocations, panics.
* The parts of Go's `net/url` the handlers call (`Values.Add`, `Values.Encode`, `QueryEscape`,
  `URL.String`) are modelled function by function; the transport and the XML / JSON decoders of
  the standard library are parameters (`Env`).
-/

set_option linter.dupNamespace false

namespace Cas

/-! ## Byte strings -/

/-- A Go `string` or `[]byte`: a sequence of bytes. -/
abbrev Bytes := List Nat

/-- The bytes of an ASCII literal. -/
def ascii (s : String) : Bytes := s.toList.map Char.toNat

/-- Go `strings.HasPrefix(s, p)`: `len(s) >= len(p) && s[0:len(p)] == p`. -/
def HasPrefix (s p : Bytes) : Bool :=
  decide (p.length ≤ s.length) && (s.take p.length == p)

/-- Go `bytes.IndexByte(b, c)`: the index of the first `c` in `b`, or `-1`. -/
def IndexByte : Bytes → Nat → Int
  | [], _ => -1
  | b :: bs, c =>
    if b = c then 0
    else
      let r := IndexByte bs c
      if r < 0 then -1 else r + 1

/-- Go `strings.IndexByte`, same contract as `bytes.IndexByte`. -/
def stringsIndexByte (s : Bytes) (c : Nat) : Int := IndexByte s c

/-- Go string comparison `a < b`: lexicographic on bytes. -/
def bytesLess : Bytes → Bytes → Bool
  | [], [] => false
  | [], _ :: _ => true
  | _ :: _, [] => false
  | a :: as, b :: bs => if a < b then true else if b < a then false else bytesLess as bs

/-! ## net/url: escaping -/

/-- The escaping modes of `net/url` that `URL.String` and `Values.Encode` use. -/
inductive encoding where
  | encodePath
  | encodeHost
  | encodeUserPassword
  | encodeQueryComponent
  | encodeFragment
  deriving DecidableEq, Repr

/-- Whether `c` is an ASCII letter or digit. -/
def isAlnum (c : Nat) : Bool :=
  (decide (97 ≤ c) && decide (c ≤ 122)) || (decide (65 ≤ c) && decide (c ≤ 90)) ||
    (decide (48 ≤ c) && decide (c ≤ 57))

/-- Go `net/url.shouldEscape(c, mode)`. -/
def shouldEscape (c : Nat) (mode : encoding) : Bool :=
  if isAlnum c then false
  -- host: sub-delims, ':', '[', ']', '<', '>', '"' stay as they are
  else if mode = encoding.encodeHost ∧
      c ∈ [33, 36, 38, 39, 40, 41, 42, 43, 44, 59, 61, 58, 91, 93, 60, 62, 34] then false
  -- '-', '_', '.', '~'
  else if c ∈ [45, 95, 46, 126] then false
  -- '$', '&', '+', ',', '/', ':', ';', '=', '?', '@'
  else if c ∈ [36, 38, 43, 44, 47, 58, 59, 61, 63, 64] then
    match mode with
    | encoding.encodePath => decide (c = 63)
    | encoding.encodeUserPassword => decide (c = 64 ∨ c = 47 ∨ c = 63 ∨ c = 58)
    | encoding.encodeQueryComponent => true
    | encoding.encodeFragment => false
    | encoding.encodeHost => true
  -- fragment: '!', '(', ')', '*'
  else if mode = encoding.encodeFragment ∧ c ∈ [33, 40, 41, 42] then false
  else true

/-- The digit `"0123456789ABCDEF"[n]` of Go's `upperhex`. -/
def upperhex (n : Nat) : Nat :=
  if n % 16 < 10 then 48 + n % 16 else 55 + n % 16

/-- What `net/url.escape` writes for one byte: `+` for a space in a query component,
`%XX` for a byte that must be escaped, the byte itself otherwise. -/
def escapeByte (mode : encoding) (c : Nat) : Bytes :=
  if c = 32 ∧ mode = encoding.encodeQueryComponent then [43]
  else if shouldEscape c mode then [37, upperhex (c / 16), upperhex (c % 16)]
  else [c]

/-- Go `net/url.escape(s, mode)`. -/
def escape (s : Bytes) (mode : encoding) : Bytes :=
  s.flatMap (escapeByte mode)

/-- Go `url.QueryEscape`. -/
def QueryEscape (s : Bytes) : Bytes := escape s encoding.encodeQueryComponent

/-- Go `net/url.ishex`. -/
def ishex (c : Nat) : Bool :=
  (decide (48 ≤ c) && decide (c ≤ 57)) || (decide (97 ≤ c) && decide (c ≤ 102)) ||
    (decide (65 ≤ c) && decide (c ≤ 70))

/-- Go `net/url.unhex`. -/
def unhex (c : Nat) : Nat :=
  if 48 ≤ c ∧ c ≤ 57 then c - 48
  else if 97 ≤ c ∧ c ≤ 102 then c - 97 + 10
  else if 65 ≤ c ∧ c ≤ 70 then c - 65 + 10
  else 0

/-- Go `net/url.unescape(s, mode)` for the path, fragment and query-component modes:
`none` is the error result. -/
def unescape : Bytes → encoding → Option Bytes
  | [], _ => some []
  | c :: rest, mode =>
    if c = 37 then
      match rest with
      | a :: b :: rest2 =>
        if ishex a && ishex b then
          (unescape rest2 mode).map (fun t => (unhex a * 16 + unhex b) :: t)
        else none
      | _ => none
    else if c = 43 then
      (unescape rest mode).map
        (fun t => (if mode = encoding.encodeQueryComponent then 32 else 43) :: t)
    else (unescape rest mode).map (fun t => c :: t)

/-- Go `net/url.validEncoded(s, mode)`. -/
def validEncoded (s : Bytes) (mode : encoding) : Bool :=
  s.all (fun c =>
    if c ∈ [33, 36, 38, 39, 40, 41, 42, 43, 44, 59, 61, 58, 64] then true
    else if c = 91 ∨ c = 93 then true
    else if c = 37 then true
    else !(shouldEscape c mode))

/-! ## net/url: query values -/

/-- Go `url.Values`, a `map[string][]string`: each key once, with its values in the order
they were added. -/
abbrev Values := List (Bytes × List Bytes)

/-- The value list `v[key]` (empty for a key that is not there). -/
def Values.lookup (v : Values) (key : Bytes) : List Bytes :=
  match v with
  | [] => []
  | (k, vs) :: rest => if k = key then vs else Values.lookup rest key

/-- Go `Values.Get`: the first value of the key, `""` when it has none. -/
def Values.Get (v : Values) (key : Bytes) : Bytes :=
  match Values.lookup v key with
  | [] => []
  | x :: _ => x

/-- Go `Values.Add`: `v[key] = append(v[key], value)`. -/
def Values.Add (v : Values) (key value : Bytes) : Values :=
  match v with
  | [] => [(key, [value])]
  | (k, vs) :: rest =>
    if k = key then (k, vs ++ [value]) :: rest else (k, vs) :: Values.Add rest key value

/-- Insertion of one key into a list sorted by `bytesLess`. -/
def insertKey (k : Bytes) : List Bytes → List Bytes
  | [] => [k]
  | x :: xs => if bytesLess x k then x :: insertKey k xs else k :: x :: xs

/-- Go `sort.Strings(keys)`. -/
def sortStrings (keys : List Bytes) : List Bytes :=
  keys.foldr insertKey []

/-- The inner loop of `Values.Encode`: appends `keyEscaped=QueryEscape(v)` to the buffer for
every value of one key, preceded by `&` when the buffer is not empty. -/
def encodeKey (keyEscaped : Bytes) (buf : Bytes) (vs : List Bytes) : Bytes :=
  vs.foldl (fun buf v =>
    (if buf.length > 0 then buf ++ [38] else buf) ++ keyEscaped ++ [61] ++ QueryEscape v) buf

/-- Go `Values.Encode`: the values in "URL encoded" form, `bar=baz&foo=quux`, sorted by key. -/
def Values.Encode (v : Values) : Bytes :=
  (sortStrings (v.map Prod.fst)).foldl
    (fun buf k => encodeKey (QueryEscape k) buf (Values.lookup v k)) []

/-! ## net/url: URL -/

/-- Go `url.Userinfo`. -/
structure Userinfo where
  username : Bytes
  password : Bytes
  passwordSet : Bool
  deriving DecidableEq, Repr

/-- Go `Userinfo.String`. -/
def Userinfo.String (u : Userinfo) : Bytes :=
  escape u.username encoding.encodeUserPassword ++
    (if u.passwordSet then [58] ++ escape u.password encoding.encodeUserPassword else [])

/-- Go `url.URL`. -/
structure URL where
  Scheme : Bytes := []
  Opaque : Bytes := []
  User : Option Userinfo := none
  Host : Bytes := []
  Path : Bytes := []
  RawPath : Bytes := []
  ForceQuery : Bool := false
  RawQuery : Bytes := []
  Fragment : Bytes := []
  RawFragment : Bytes := []
  deriving DecidableEq, Repr

/-- Go `URL.EscapedPath`. -/
def URL.EscapedPath (u : URL) : Bytes :=
  if u.RawPath ≠ [] ∧ validEncoded u.RawPath encoding.encodePath = true ∧
      unescape u.RawPath encoding.encodePath = some u.Path then u.RawPath
  else if u.Path = [42] then [42]
  else escape u.Path encoding.encodePath

/-- Go `URL.EscapedFragment`. -/
def URL.EscapedFragment (u : URL) : Bytes :=
  if u.RawFragment ≠ [] ∧ validEncoded u.RawFragment encoding.encodeFragment = true ∧
      unescape u.RawFragment encoding.encodeFragment = some u.Fragment then u.RawFragment
  else escape u.Fragment encoding.encodeFragment

/-- The part of `URL.String` written when `Opaque` is empty: authority and path. -/
def URL.hierPart (u : URL) : Bytes :=
  let buf : Bytes := if u.Scheme ≠ [] then u.Scheme ++ [58] else []
  let buf :=
    if u.Scheme ≠ [] ∨ u.Host ≠ [] ∨ u.User ≠ none then
      let buf :=
        if u.Host ≠ [] ∨ u.Path ≠ [] ∨ u.User ≠ none then buf ++ [47, 47] else buf
      let buf := match u.User with
        | some ui => buf ++ ui.String ++ [64]
        | none => buf
      if u.Host ≠ [] then buf ++ escape u.Host encoding.encodeHost else buf
    else buf
  let path := u.EscapedPath
  let buf := if path ≠ [] ∧ path.head? ≠ some 47 ∧ u.Host ≠ [] then buf ++ [47] else buf
  let buf :=
    if buf.length = 0 then
      let i := stringsIndexByte path 58
      if i > -1 ∧ stringsIndexByte (path.take i.toNat) 47 = -1 then buf ++ [46, 47] else buf
    else buf
  buf ++ path

/-- Go `URL.String`: `scheme:opaque?query#fragment` or
`scheme://userinfo@host/path?query#fragment`. -/
def URL.String (u : URL) : Bytes :=
  let buf : Bytes :=
    if u.Opaque ≠ [] then (if u.Scheme ≠ [] then u.Scheme ++ [58] else []) ++ u.Opaque
    else u.hierPart
  let buf := if u.ForceQuery = true ∨ u.RawQuery ≠ [] then buf ++ [63] ++ u.RawQuery else buf
  if u.Fragment ≠ [] then buf ++ [35] ++ u.EscapedFragment else buf

/-! ## protocol_uri.go, protocol_version.go -/

/-- The source's `CASLoginURI`: credential requestor / acceptor. -/
def CASLoginURI : Bytes := ascii "/login"

/-- The source's `CASValidateURI`: service ticket validation. -/
def CASValidateURI : Bytes := ascii "/validate"

/-- The source's `CASVersion2ServiceValidateURI`: service ticket validation [CAS 2.0]. -/
def CASVersion2ServiceValidateURI : Bytes := ascii "/serviceValidate"

/-- The source's `CASVersion3ServiceValidateURI`: service ticket validation [CAS 3.0]. -/
def CASVersion3ServiceValidateURI : Bytes := ascii "/p3/serviceValidate"

/-- The source's `ProtocolVersion`, a `uint8`. -/
abbrev ProtocolVersion := Nat

/-- The source's `CASVersionUndefined`: the protocol version to use is not set. -/
def CASVersionUndefined : ProtocolVersion := 0

/-- The source's `CASVersion1`: the CAS 1.0 protocol. -/
def CASVersion1 : ProtocolVersion := 1

/-- The source's `CASVersion2`: the CAS 2.0 protocol. -/
def CASVersion2 : ProtocolVersion := 2

/-- The source's `CASVersion3`: the CAS 3.0 protocol. -/
def CASVersion3 : ProtocolVersion := 3

/-! ## service_response.go -/

/-- Go `xml.Name`. -/
structure xmlName where
  Space : Bytes := []
  Local : Bytes := []
  deriving DecidableEq, Repr

/-- The source's `AuthenticationFailure`. -/
structure AuthenticationFailure where
  XMLName : xmlName := {}
  Code : Bytes := []
  Message : Bytes := []
  deriving DecidableEq, Repr

/-- The source's `AnyAttribute`. -/
structure AnyAttribute where
  XMLName : xmlName := {}
  Value : Bytes := []
  deriving DecidableEq, Repr

/-- The source's `NamedAttribute`. -/
structure NamedAttribute where
  XMLName : xmlName := {}
  Name : Bytes := []
  Value : Bytes := []
  deriving DecidableEq, Repr

/-- The source's `UserAttributes`. -/
structure UserAttributes where
  XMLName : xmlName := {}
  Attributes : List NamedAttribute := []
  AnyAttributes : List AnyAttribute := []
  deriving DecidableEq, Repr

/-- The source's `Attributes`; the `time.Time` of `AuthenticationDate` is an instant in
nanoseconds. -/
structure Attributes where
  XMLName : xmlName := {}
  AuthenticationDate : Int := 0
  LongTermAuthenticationRequestTokenUsed : Bool := false
  IsFromNewLogin : Bool := false
  MemberOf : List Bytes := []
  UserAttributes : Option UserAttributes := none
  ExtraAttributes : List AnyAttribute := []
  deriving DecidableEq, Repr

/-- The source's `Proxies`. -/
structure Proxies where
  XMLName : xmlName := {}
  Proxies : List Bytes := []
  deriving DecidableEq, Repr

/-- The source's `Proxies.AddProxy`. -/
def Proxies.AddProxy (p : Cas.Proxies) (proxy : Bytes) : Cas.Proxies :=
  { p with Proxies := p.Proxies ++ [proxy] }

/-- The source's `AuthenticationSuccess`. -/
structure AuthenticationSuccess where
  XMLName : xmlName := {}
  User : Bytes := []
  ProxyGrantingTicket : Bytes := []
  Proxies : Option Proxies := none
  Attributes : Option Attributes := none
  ExtraAttributes : List AnyAttribute := []
  deriving DecidableEq, Repr

/-- The source's `ServiceResponse`: the two pointer fields are `none` when nil. -/
structure ServiceResponse where
  XMLName : xmlName := {}
  Failure : Option AuthenticationFailure := none
  Success : Option AuthenticationSuccess := none
  deriving DecidableEq, Repr

/-! ## client_option.go -/

/-- An `*http.Client`: the one `NewClient` makes when none is given, or one the caller
passed. -/
inductive HTTPClient where
  | default
  | custom (id : Nat)
  deriving DecidableEq, Repr

/-- The source's `clientOptions`. A callback field holds the identity of the function stored in it,
`none` for a nil function. -/
structure clientOptions where
  version : ProtocolVersion
  serverURL : URL
  httpClient : Option HTTPClient := none
  v1ValidateServiceTicketCallback : Option Nat := none
  v2ValidateServiceTicketCallback : Option Nat := none
  v3ValidateServiceTicketCallback : Option Nat := none
  deriving DecidableEq, Repr

/-- The dynamic value held by the `interface{}` given to
`WithValidateServiceTicketCallback`: a function of one of the three callback types (a nil
function is `none`), or a value of any other type. -/
inductive CallbackValue where
  | V1ValidateServiceTicketCallbackFunc (f : Option Nat)
  | V2ValidateServiceTicketCallbackFunc (f : Option Nat)
  | V3ValidateServiceTicketCallbackFunc (f : Option Nat)
  | other
  deriving DecidableEq, Repr

/-- The source's `ClientOption`: the two implementations of the interface. -/
inductive ClientOption where
  | httpClientOption (HTTPClient : Option HTTPClient)
  | validateServiceTicketCallbackOption (ValidateServiceTicketCallback : CallbackValue)
  deriving DecidableEq, Repr

/-- The source's `WithHTTPClient`. -/
def WithHTTPClient (c : Option HTTPClient) : ClientOption :=
  ClientOption.httpClientOption c

/-- The source's `WithValidateServiceTicketCallback`. -/
def WithValidateServiceTicketCallback (f : CallbackValue) : ClientOption :=
  ClientOption.validateServiceTicketCallbackOption f

/-- The `apply` methods of `httpClientOption` and `validateServiceTicketCallbackOption`:
the options after the call, or the message of the panic. -/
def ClientOption.apply (o : ClientOption) (opts : clientOptions) : Except Bytes clientOptions :=
  match o with
  | ClientOption.httpClientOption hc => Except.ok { opts with httpClient := hc }
  | ClientOption.validateServiceTicketCallbackOption cb =>
    if opts.version = CASVersion1 then
      match cb with
      | CallbackValue.V1ValidateServiceTicketCallbackFunc f =>
        Except.ok { opts with v1ValidateServiceTicketCallback := f }
      | _ => Except.error
        (ascii "Illegal parameter: type V1ValidateServiceTicketCallbackFunc must be passed")
    else if opts.version = CASVersion2 then
      match cb with
      | CallbackValue.V2ValidateServiceTicketCallbackFunc f =>
        Except.ok { opts with v2ValidateServiceTicketCallback := f }
      | _ => Except.error
        (ascii "Illegal parameter: type V2ValidateServiceTicketCallbackFunc must be passed")
    else if opts.version = CASVersion3 then
      match cb with
      | CallbackValue.V3ValidateServiceTicketCallbackFunc f =>
        Except.ok { opts with v3ValidateServiceTicketCallback := f }
      | _ => Except.error
        (ascii "Illegal parameter: type V3ValidateServiceTicketCallbackFunc must be passed")
    else Except.error (ascii "Unknown CAS protocol version")

/-! ## client.go -/

/-- The source's `Client`. -/
structure Client where
  options : clientOptions
  deriving DecidableEq, Repr

/-- The sentinel errors of error.go. -/
inductive Error where
  | ErrInvalidProtocolVersion
  | ErrInvalidServerURL
  deriving DecidableEq, Repr

/-- What a call of `NewClient` ends in: a client, an error, or a panic. -/
inductive NewClientResult where
  | ok (c : Client)
  | err (e : Error)
  | panic (msg : Bytes)
  deriving DecidableEq, Repr

/-- The loop of `NewClient` that applies the custom options in order. -/
def applyOptions (options : clientOptions) : List ClientOption → Except Bytes clientOptions
  | [] => Except.ok options
  | o :: rest =>
    match o.apply options with
    | Except.ok options2 => applyOptions options2 rest
    | Except.error msg => Except.error msg

/-- The source's `NewClient`. The second argument is what `url.Parse(serverURL)` returned: the
parsed URL, or `none` for an error. -/
def NewClient (version : ProtocolVersion) (parsedURL : Option URL) (opts : List ClientOption) :
    NewClientResult :=
  if version = CASVersionUndefined ∨ version > CASVersion3 then
    NewClientResult.err Error.ErrInvalidProtocolVersion
  else
    match parsedURL with
    | none => NewClientResult.err Error.ErrInvalidServerURL
    | some u =>
      match applyOptions { version := version, serverURL := u, httpClient := none } opts with
      | Except.error msg => NewClientResult.panic msg
      | Except.ok options =>
        NewClientResult.ok
          { options :=
              if options.httpClient = none then
                { options with httpClient := some HTTPClient.default }
              else options }

/-- The source's `Client.Version`. -/
def Client.Version (c : Client) : ProtocolVersion := c.options.version

/-- The inbound `*http.Request`, as far as the handlers read it: the headers (keys in
canonical form), whether `TLS` is non-nil, `Host`, `URL`, and `Query`, the parsed query
string that `req.URL.Query()` returns. -/
structure Request where
  Header : Values := []
  TLS : Bool := false
  Host : Bytes := []
  URL : URL := {}
  Query : Values := []
  deriving DecidableEq, Repr

/-- The source's `pretreatRequest`: sets the scheme and host of `req.URL` to the externally
visible ones. -/
def pretreatRequest (req : Request) : Request :=
  let schema := Values.Get req.Header (ascii "X-Forwarded-Proto")
  let scheme :=
    if schema ≠ [] then schema
    else if req.TLS then ascii "https"
    else ascii "http"
  let host := Values.Get req.Header (ascii "X-Forwarded-Host")
  let host := if host ≠ [] then host else req.Host
  { req with URL := { req.URL with Scheme := scheme, Host := host } }

/-- Go `http.StatusFound`. -/
def StatusFound : Nat := 302

/-- Go `http.StatusBadRequest`. -/
def StatusBadRequest : Nat := 400

/-- Go `http.StatusInternalServerError`. -/
def StatusInternalServerError : Nat := 500

/-- Go `http.StatusServiceUnavailable`. -/
def StatusServiceUnavailable : Nat := 503

/-- A response body as a reader: the bytes it delivers, and whether reading ends in an
error rather than in end-of-file. -/
structure Body where
  data : Bytes := []
  readErr : Bool := false
  deriving DecidableEq, Repr

/-- Go `ioutil.ReadAll`: all the bytes, or `none` for a read error. -/
def ReadAll (b : Body) : Option Bytes :=
  if b.readErr then none else some b.data

/-- What `httpClient.Do` returns: an error, or a response with its body. -/
inductive DoResult where
  | err
  | ok (body : Body)
  deriving DecidableEq, Repr

/-- The outside world a validation depends on: what the transport answers to a `GET` of a
URL, and what the decoders of `encoding/xml` and `encoding/json` make of a body when
decoding into a zero `ServiceResponse` (`none` for a decoding error). -/
structure Env where
  Do : HTTPClient → URL → DoResult
  xmlDecode : Body → Option ServiceResponse
  jsonDecode : Body → Option ServiceResponse

/-- The observable actions of a handler, which it performs in order. -/
inductive Effect where
  /-- Go `resp.Header().Add(key, value)`. -/
  | headerAdd (key value : Bytes)
  /-- Go `resp.WriteHeader(status)`. -/
  | writeHeader (status : Nat)
  /-- Go `httpClient.Do(&http.Request{Method: method, URL: url})`. -/
  | httpDo (client : HTTPClient) (method : Bytes) (url : URL)
  /-- The deferred `validateResp.Body.Close()`. -/
  | bodyClose
  /-- A call of the function `f` stored in `v1ValidateServiceTicketCallback`. -/
  | v1Callback (f : Nat) (isValid : Bool) (user : Bytes)
  /-- A call of the function `f` stored in `v2ValidateServiceTicketCallback`. -/
  | v2Callback (f : Nat) (serviceResp : ServiceResponse)
  /-- A call of the function `f` stored in `v3ValidateServiceTicketCallback`. -/
  | v3Callback (f : Nat) (serviceResp : ServiceResponse)
  /-- A panic with a message. -/
  | panic (msg : Bytes)
  /-- The run-time panic of a call through a nil function or nil pointer. -/
  | nilPanic
  deriving DecidableEq, Repr

/-- The source's `RedirectToServerOption`. -/
structure RedirectToServerOption where
  Service : Bytes := []
  Renew : Bool := false
  Gateway : Bool := false
  Method : Bytes := []
  deriving DecidableEq, Repr

/-- The query built by the handler of `RedirectToServer` (client.go, lines 127-142). -/
def redirectQuery (opts : RedirectToServerOption) (req : Request) : Values :=
  let query : Values :=
    if opts.Service.head? = some 47 then
      Values.Add [] (ascii "service")
        (req.URL.Scheme ++ ascii "://" ++ req.URL.Host ++ opts.Service)
    else Values.Add [] (ascii "service") opts.Service
  let query := if opts.Renew then Values.Add query (ascii "renew") (ascii "true") else query
  let query := if opts.Gateway then Values.Add query (ascii "gateway") (ascii "true") else query
  if opts.Method ≠ [] then Values.Add query (ascii "method") opts.Method else query

/-- The handler that `RedirectToServer` returns (client.go, lines 124-151). -/
def redirectHandler (c : Client) (opts : RedirectToServerOption) (req : Request) : List Effect :=
  let req := pretreatRequest req
  let query := redirectQuery opts req
  let serverURL := { c.options.serverURL with Path := CASLoginURI, RawQuery := Values.Encode query }
  [Effect.headerAdd (ascii "Location") serverURL.String, Effect.writeHeader StatusFound]

/-- The source's `RedirectToServer`: the handler, or the message of the panic. -/
def RedirectToServer (c : Client) (opts : RedirectToServerOption) :
    Except Bytes (Request → List Effect) :=
  if opts.Service = [] then Except.error (ascii "Service option is required")
  else if opts.Service.head? ≠ some 47 ∧ HasPrefix opts.Service (ascii "http") = false then
    Except.error (ascii "Invalid Service value: " ++ opts.Service)
  else if opts.Renew = true ∧ opts.Gateway = true then
    Except.error (ascii "Renew and Gateway option cannot be set at the same time")
  else if opts.Method = [] ∨ opts.Method = ascii "GET" ∨ opts.Method = ascii "POST" ∨
      opts.Method = ascii "HEAD" then
    Except.ok (redirectHandler c opts)
  else Except.error (ascii "Unsupported Method option: " ++ opts.Method)

/-- The source's `ValidateServiceTicketOption`. -/
structure ValidateServiceTicketOption where
  Renew : Bool := false
  PGTUrl : Bytes := []
  Format : Bytes := []
  deriving DecidableEq, Repr

/-- The `pgtUrl` and `format` parameters added for versions 2 and 3 (client.go, lines
206-211 and 214-219). -/
def addProxyAndFormat (opts : ValidateServiceTicketOption) (sendQuery : Values) : Values :=
  let sendQuery :=
    if opts.PGTUrl ≠ [] then Values.Add sendQuery (ascii "pgtUrl") opts.PGTUrl else sendQuery
  if opts.Format ≠ [] then Values.Add sendQuery (ascii "format") opts.Format else sendQuery

/-- The path and query of the validation request (client.go, lines 193-223); `req` is the
request after `pretreatRequest`, `none` is the panic of the `default` case. -/
def sendPathAndQuery (c : Client) (opts : ValidateServiceTicketOption) (req : Request)
    (ticket : Bytes) : Option (Bytes × Values) :=
  let sendQuery : Values := Values.Add [] (ascii "service") req.URL.String
  let sendQuery := Values.Add sendQuery (ascii "ticket") ticket
  let sendQuery :=
    if opts.Renew then Values.Add sendQuery (ascii "renew") (ascii "yes") else sendQuery
  if c.options.version = CASVersion1 then some (CASValidateURI, sendQuery)
  else if c.options.version = CASVersion2 then
    some (CASVersion2ServiceValidateURI, addProxyAndFormat opts sendQuery)
  else if c.options.version = CASVersion3 then
    some (CASVersion3ServiceValidateURI, addProxyAndFormat opts sendQuery)
  else none

/-- The URL of the validation request, `sendURL` (client.go, lines 193-224). -/
def sendURL (c : Client) (opts : ValidateServiceTicketOption) (req : Request) (ticket : Bytes) :
    Option URL :=
  (sendPathAndQuery c opts req ticket).map
    (fun pq => { c.options.serverURL with Path := pq.1, RawQuery := Values.Encode pq.2 })

/-- The call of the version 1 callback: a nil function panics. -/
def callV1 (c : Client) (isValid : Bool) (user : Bytes) : List Effect :=
  match c.options.v1ValidateServiceTicketCallback with
  | some f => [Effect.v1Callback f isValid user]
  | none => [Effect.nilPanic]

/-- The call of `c.options.v2ValidateServiceTicketCallback`: a nil function panics. -/
def callV2 (c : Client) (serviceResp : ServiceResponse) : List Effect :=
  match c.options.v2ValidateServiceTicketCallback with
  | some f => [Effect.v2Callback f serviceResp]
  | none => [Effect.nilPanic]

/-- Parsing of the authority's response and the dispatch to the callback (client.go, lines
239-292). -/
def parseResponse (c : Client) (opts : ValidateServiceTicketOption) (env : Env) (body : Body) :
    List Effect :=
  if c.options.version = CASVersion1 then
    match ReadAll body with
    | none => [Effect.writeHeader StatusServiceUnavailable]
    | some result =>
      if 4 ≤ result.length ∧ result.take 4 = ascii "yes\n" then
        let r := IndexByte (result.drop 4) 10
        if r < 1 then [Effect.writeHeader StatusServiceUnavailable]
        else callV1 c true ((result.drop 4).take r.toNat)
      else callV1 c false []
  else if c.options.version = CASVersion2 ∨ c.options.version = CASVersion3 then
    if opts.Format = ascii "XML" then
      match env.xmlDecode body with
      | none => [Effect.writeHeader StatusServiceUnavailable]
      | some sericeResp => callV2 c sericeResp
    else if opts.Format = ascii "JSON" then
      match env.jsonDecode body with
      | none => [Effect.writeHeader StatusServiceUnavailable]
      | some sericeResp => callV2 c sericeResp
    else [Effect.writeHeader StatusInternalServerError]
  else [Effect.writeHeader StatusInternalServerError]

/-- The handler that `ValidateServiceTicket` returns (client.go, lines 182-293). -/
def validateHandler (c : Client) (opts : ValidateServiceTicketOption) (env : Env)
    (req : Request) : List Effect :=
  let ticket := Values.Get req.Query (ascii "ticket")
  if ticket.length < 16 ∨ HasPrefix ticket (ascii "ST-") = false then
    [Effect.writeHeader StatusBadRequest]
  else
    match sendURL c opts (pretreatRequest req) ticket with
    | none => [Effect.panic (ascii "Unknown CAS protocol version")]
    | some url =>
      match c.options.httpClient with
      | none => [Effect.nilPanic]
      | some hc =>
        match env.Do hc url with
        | DoResult.err =>
          [Effect.httpDo hc (ascii "GET") url, Effect.writeHeader StatusServiceUnavailable]
        | DoResult.ok body =>
          Effect.httpDo hc (ascii "GET") url ::
            (parseResponse c opts env body ++ [Effect.bodyClose])

/-- The source's `ValidateServiceTicket`: the handler, or the message of the panic. -/
def ValidateServiceTicket (c : Client) (opts : ValidateServiceTicketOption) :
    Except Bytes (Env → Request → List Effect) :=
  if opts.Format = [] ∨ opts.Format = ascii "XML" ∨ opts.Format = ascii "JSON" then
    Except.ok (validateHandler c opts)
  else Except.error (ascii "Unsupported format: " ++ opts.Format)

/-! ## Example inputs -/

/-- The server URL as `url.Parse("https://cas.example.org/cas")` returns it. -/
def exampleServerURL : URL :=
  { Scheme := ascii "https", Host := ascii "cas.example.org", Path := ascii "/cas" }

/-- The client that `NewClient` returns for version 1, `exampleServerURL` and a version 1
callback (function number 7). -/
def exampleClientV1 : Client :=
  { options :=
      { version := CASVersion1, serverURL := exampleServerURL,
        httpClient := some HTTPClient.default,
        v1ValidateServiceTicketCallback := some 7 } }

/-- The client that `NewClient` returns for version 2, `exampleServerURL` and a version 2
callback (function number 7). -/
def exampleClientV2 : Client :=
  { options :=
      { version := CASVersion2, serverURL := exampleServerURL,
        httpClient := some HTTPClient.default,
        v2ValidateServiceTicketCallback := some 7 } }

/-- The client that `NewClient` returns for version 3, `exampleServerURL` and a version 3
callback (function number 7). -/
def exampleClientV3 : Client :=
  { options :=
      { version := CASVersion3, serverURL := exampleServerURL,
        httpClient := some HTTPClient.default,
        v3ValidateServiceTicketCallback := some 7 } }

/-- An inbound request `GET /callback?ticket=<ticket>` over TLS for host `app.example.org`. -/
def exampleRequest (ticket : Bytes) : Request :=
  { TLS := true, Host := ascii "app.example.org",
    URL := { Path := ascii "/callback", RawQuery := ascii "ticket=" ++ ticket },
    Query := [(ascii "ticket", [ticket])] }

/-- An inbound request with no `ticket` parameter. -/
def exampleRequestNoTicket : Request :=
  { TLS := true, Host := ascii "app.example.org", URL := { Path := ascii "/callback" } }

/-- A world whose transport answers every request with the given body and whose decoders
reject every body. -/
def exampleEnv (body : Bytes) : Env :=
  { Do := fun _ _ => DoResult.ok { data := body },
    xmlDecode := fun _ => none,
    jsonDecode := fun _ => none }

/-- The URL version 1 validation sends for `exampleRequest` with the given ticket. -/
def exampleSendURLV1 (ticket : Bytes) : URL :=
  { exampleServerURL with
    Path := CASValidateURI,
    RawQuery := ascii "service=https%3A%2F%2Fapp.example.org%2Fcallback%3Fticket%3D" ++ ticket ++
      ascii "&ticket=" ++ ticket }

/-! ## Reading a query string -/

/-- The fields of a query string: the pieces between the `&` separators. -/
def queryFields (raw : Bytes) : List Bytes :=
  raw.foldr (fun b acc => if b = 38 then [] :: acc else (b :: acc.headD []) :: acc.tail) [[]]

/-- The value, still escaped, of a field when the field is `key=value`. -/
def fieldValue (key field : Bytes) : Option Bytes :=
  if HasPrefix field (key ++ [61]) = true then some (field.drop (key.length + 1)) else none

/-- The value, still escaped, of the first field `key=value` of a query string; `none` when
no field has that key. -/
def queryParam (raw key : Bytes) : Option Bytes :=
  (queryFields raw).findSome? (fieldValue key)

/-- Go `url.QueryUnescape`; `none` is the error result. -/
def QueryUnescape (s : Bytes) : Option Bytes := unescape s encoding.encodeQueryComponent

/-- The field `key=value` as `Values.Encode` writes it for a key of letters. -/
def queryField (key value : Bytes) : Bytes := key ++ 61 :: QueryEscape value

/-- Fields joined by `&`. -/
def joinFields : List Bytes → Bytes
  | [] => []
  | [f] => f
  | f :: g :: fs => f ++ 38 :: joinFields (g :: fs)

/-- The fields of the validation query in the order `Values.Encode` writes them (sorted by
key): `format`, `pgtUrl`, `renew`, `service`, `ticket`. Used to state what `sendURL` encodes. -/
def validationFields (version : ProtocolVersion) (opts : ValidateServiceTicketOption)
    (service ticket : Bytes) : List Bytes :=
  (if 2 ≤ version ∧ opts.Format ≠ []
    then [queryField (ascii "format") opts.Format] else []) ++
  (if 2 ≤ version ∧ opts.PGTUrl ≠ []
    then [queryField (ascii "pgtUrl") opts.PGTUrl] else []) ++
  (if opts.Renew = true then [queryField (ascii "renew") (ascii "yes")] else []) ++
  [queryField (ascii "service") service, queryField (ascii "ticket") ticket]

/-- The fields of the login query in the order `Values.Encode` writes them (sorted by key):
`gateway`, `method`, `renew`, `service`. Used to state what `redirectHandler` encodes. -/
def redirectFields (opts : RedirectToServerOption) (service : Bytes) : List Bytes :=
  (if opts.Gateway = true then [queryField (ascii "gateway") (ascii "true")] else []) ++
  (if opts.Method ≠ [] then [queryField (ascii "method") opts.Method] else []) ++
  (if opts.Renew = true then [queryField (ascii "renew") (ascii "true")] else []) ++
  [queryField (ascii "service") service]

/-- The externally visible scheme of an inbound request: `X-Forwarded-Proto` when present,
else `https` for a TLS connection and `http` otherwise. -/
def visibleScheme (req : Request) : Bytes :=
  if Values.Get req.Header (ascii "X-Forwarded-Proto") ≠ [] then
    Values.Get req.Header (ascii "X-Forwarded-Proto")
  else if req.TLS = true then ascii "https"
  else ascii "http"

/-- The externally visible host of an inbound request: `X-Forwarded-Host` when present, else
the request's `Host`. -/
def visibleHost (req : Request) : Bytes :=
  if Values.Get req.Header (ascii "X-Forwarded-Host") ≠ [] then
    Values.Get req.Header (ascii "X-Forwarded-Host")
  else req.Host

/-- An inbound request `GET /` for host `app.example.org` over TLS. -/
def exampleVisit : Request :=
  { TLS := true, Host := ascii "app.example.org", URL := { Path := ascii "/" } }

/-- An inbound request behind a reverse proxy: plain HTTP to an internal host, with the
forwarded scheme `https` and host `app.example.org`. -/
def exampleProxiedVisit : Request :=
  { TLS := false, Host := ascii "10.0.0.7:8080", URL := { Path := ascii "/" },
    Header := [(ascii "X-Forwarded-Proto", [ascii "https"]),
      (ascii "X-Forwarded-Host", [ascii "app.example.org"])] }

/-- A world whose transport answers every request with the given body and whose decoders
decode every body into the given response. -/
def exampleDecodingEnv (body : Bytes) (serviceResp : ServiceResponse) : Env :=
  { Do := fun _ _ => DoResult.ok { data := body },
    xmlDecode := fun _ => some serviceResp,
    jsonDecode := fun _ => some serviceResp }

/-- A decoded success for the user `alice`. -/
def exampleSuccess : ServiceResponse :=
  { XMLName := { Space := ascii "http://www.yale.edu/tp/cas", Local := ascii "serviceResponse" },
    Success := some { User := ascii "alice" } }

/-- Go `json.Decoder.Decode` into a zero `ServiceResponse`, on bodies that are the empty
JSON object: `{}` sets no field and is no error, so the result is the zero value. Bodies of any
other form are outside this fragment and are given as errors. -/
def jsonDecodeEmptyObject (b : Body) : Option ServiceResponse :=
  if b.data = ascii "{}" ∧ b.readErr = false then some {} else none

/-- A world whose transport answers every request with the body `{}`, decoded by
`jsonDecodeEmptyObject`. -/
def emptyObjectEnv : Env :=
  { Do := fun _ _ => DoResult.ok { data := ascii "{}" },
    xmlDecode := fun _ => none,
    jsonDecode := jsonDecodeEmptyObject }

/-- The URL version `2` validation sends for `exampleRequest` with the given ticket and
format. -/
def exampleSendURLV2 (ticket format : Bytes) : URL :=
  { exampleServerURL with
    Path := CASVersion2ServiceValidateURI,
    RawQuery := (if format ≠ [] then ascii "format=" ++ format ++ [38] else []) ++
      ascii "service=https%3A%2F%2Fapp.example.org%2Fcallback%3Fticket%3D" ++ ticket ++
      ascii "&ticket=" ++ ticket }

/-- The URL version `3` validation sends for `exampleRequest` with the given ticket and
format. -/
def exampleSendURLV3 (ticket format : Bytes) : URL :=
  { exampleSendURLV2 ticket format with Path := CASVersion3ServiceValidateURI }

/-- A well-formed CAS success document for the user `alice`. -/
def aliceXMLBody : Bytes :=
  ascii ("<cas:serviceResponse xmlns:cas=\"http://www.yale.edu/tp/cas\">" ++
    "<cas:authenticationSuccess><cas:user>alice</cas:user></cas:authenticationSuccess>" ++
    "</cas:serviceResponse>")

/-- What `xml.Decoder.Decode` makes of `aliceXMLBody`: the names of the two elements, the
user, and nothing else. -/
def aliceXMLResponse : ServiceResponse :=
  { XMLName := { Space := ascii "http://www.yale.edu/tp/cas", Local := ascii "serviceResponse" },
    Success := some
      { XMLName :=
          { Space := ascii "http://www.yale.edu/tp/cas", Local := ascii "authenticationSuccess" },
        User := ascii "alice" } }

/-- Go `xml.Decoder.Decode` into a zero `ServiceResponse`, on the bodies it is evaluated at:
`aliceXMLBody` decodes into `aliceXMLResponse`; a body such as `<html/>`, whose root element is
not `serviceResponse`, is an error, and so is every other body of this fragment. -/
def xmlDecodeAlice (b : Body) : Option ServiceResponse :=
  if b.data = aliceXMLBody ∧ b.readErr = false then some aliceXMLResponse else none

/-- A world whose transport answers every request with the given body, decoded by
`xmlDecodeAlice` and `jsonDecodeEmptyObject`. -/
def aliceEnv (body : Bytes) : Env :=
  { Do := fun _ _ => DoResult.ok { data := body },
    xmlDecode := xmlDecodeAlice,
    jsonDecode := jsonDecodeEmptyObject }

/-! ## Facts about the byte-string helpers -/

theorem IndexByte_of_not_mem (l : Bytes) (c : Nat) (h : c ∉ l) : IndexByte l c = -1 := by
  induction l with
  | nil => simp [IndexByte]
  | cons b bs ih =>
    have hb : b ≠ c := fun e => h (by simp [e])
    have hbs : c ∉ bs := fun e => h (by simp [e])
    simp [IndexByte, hb, ih hbs]

theorem IndexByte_append (u rest : Bytes) (c : Nat) (h : c ∉ u) :
    IndexByte (u ++ c :: rest) c = u.length := by
  induction u with
  | nil => simp [IndexByte]
  | cons b bs ih =>
    have hb : b ≠ c := fun e => h (by simp [e])
    have hbs : c ∉ bs := fun e => h (by simp [e])
    rw [List.cons_append]
    simp only [IndexByte]
    rw [if_neg hb, ih hbs]
    simp only [List.length_cons]
    split_ifs <;> omega

theorem IndexByte_split (l : Bytes) (c : Nat) (h : 0 ≤ IndexByte l c) :
    ∃ u rest, l = u ++ c :: rest ∧ c ∉ u ∧ (u.length : Int) = IndexByte l c := by
  induction l with
  | nil => simp [IndexByte] at h
  | cons b bs ih =>
    by_cases hb : b = c
    · exact ⟨[], bs, by simp [hb], by simp, by simp [IndexByte, hb]⟩
    · simp only [IndexByte] at h ⊢
      rw [if_neg hb] at h ⊢
      by_cases hr : IndexByte bs c < 0
      · simp [hr] at h
      · obtain ⟨u, rest, hl, hu, hlen⟩ := ih (by omega)
        refine ⟨b :: u, rest, by simp [hl], ?_, ?_⟩
        · simp only [List.mem_cons, not_or]; exact ⟨fun e => hb e.symm, hu⟩
        · simp only [hr, if_false, List.length_cons]; push_cast; omega

/-! ## The handler of `ValidateServiceTicket`, step by step -/

theorem ValidateServiceTicket_ok (c : Client) (opts : ValidateServiceTicketOption)
    (h : Env → Request → List Effect) (hh : ValidateServiceTicket c opts = Except.ok h) :
    h = validateHandler c opts := by
  unfold ValidateServiceTicket at hh
  split_ifs at hh
  exact (Except.ok.inj hh).symm

theorem validateHandler_rejected (c : Client) (opts : ValidateServiceTicketOption) (env : Env)
    (req : Request)
    (hbad : (Values.Get req.Query (ascii "ticket")).length < 16 ∨
      HasPrefix (Values.Get req.Query (ascii "ticket")) (ascii "ST-") = false) :
    validateHandler c opts env req = [Effect.writeHeader 400] := by
  simp only [validateHandler, if_pos hbad, StatusBadRequest]

theorem validateHandler_accepted (c : Client) (opts : ValidateServiceTicketOption) (env : Env)
    (req : Request) (hc : HTTPClient) (url : URL) (body : Body)
    (hlen : 16 ≤ (Values.Get req.Query (ascii "ticket")).length)
    (hpre : HasPrefix (Values.Get req.Query (ascii "ticket")) (ascii "ST-") = true)
    (hhc : c.options.httpClient = some hc)
    (hurl : sendURL c opts (pretreatRequest req) (Values.Get req.Query (ascii "ticket")) = some url)
    (hdo : env.Do hc url = DoResult.ok body) :
    validateHandler c opts env req =
      Effect.httpDo hc (ascii "GET") url ::
        (parseResponse c opts env body ++ [Effect.bodyClose]) := by
  have hgood : ¬ ((Values.Get req.Query (ascii "ticket")).length < 16 ∨
      HasPrefix (Values.Get req.Query (ascii "ticket")) (ascii "ST-") = false) := by
    rw [hpre]; simp; omega
  simp only [validateHandler, if_neg hgood, hurl, hhc, hdo]

theorem HasPrefix_yes (result : Bytes) :
    HasPrefix result (ascii "yes\n") = true ↔ 4 ≤ result.length ∧ result.take 4 = ascii "yes\n" := by
  have h4 : (ascii "yes\n").length = 4 := by decide
  simp [HasPrefix, h4]

theorem parseResponse_v1 (c : Client) (opts : ValidateServiceTicketOption) (env : Env)
    (body : Body) (result : Bytes) (hv : c.options.version = CASVersion1)
    (hread : ReadAll body = some result) :
    parseResponse c opts env body =
      if HasPrefix result (ascii "yes\n") = true then
        if IndexByte (result.drop 4) 10 < 1 then [Effect.writeHeader 503]
        else callV1 c true ((result.drop 4).take (IndexByte (result.drop 4) 10).toNat)
      else callV1 c false [] := by
  simp only [parseResponse, if_pos hv, hread, HasPrefix_yes, StatusServiceUnavailable]

/-- C1. The handler returned by `ValidateServiceTicket` answers a request whose `ticket`
parameter is absent, shorter than 16 bytes or without the prefix `ST-` by writing status 400
and doing nothing else (no transport call, no callback); and whenever its trace contains a
transport call, the ticket has at least 16 bytes and begins with `ST-`. -/
theorem ticket_shape_gates_transport (c : Client) (opts : ValidateServiceTicketOption)
    (env : Env) (req : Request) (h : Env → Request → List Effect)
    (hh : ValidateServiceTicket c opts = Except.ok h) :
    ((Values.lookup req.Query (ascii "ticket") = [] ∨
        (Values.Get req.Query (ascii "ticket")).length < 16 ∨
        HasPrefix (Values.Get req.Query (ascii "ticket")) (ascii "ST-") = false) →
      h env req = [Effect.writeHeader 400]) ∧
    (∀ hc m u, Effect.httpDo hc m u ∈ h env req →
      16 ≤ (Values.Get req.Query (ascii "ticket")).length ∧
      HasPrefix (Values.Get req.Query (ascii "ticket")) (ascii "ST-") = true) := by
  rw [ValidateServiceTicket_ok c opts h hh]
  constructor
  · rintro (habs | hshort | hpre)
    · exact validateHandler_rejected c opts env req (Or.inl (by simp [Values.Get, habs]))
    · exact validateHandler_rejected c opts env req (Or.inl hshort)
    · exact validateHandler_rejected c opts env req (Or.inr hpre)
  · intro hc m u hmem
    by_contra hcon
    have hbad : (Values.Get req.Query (ascii "ticket")).length < 16 ∨
        HasPrefix (Values.Get req.Query (ascii "ticket")) (ascii "ST-") = false := by
      by_cases hl : (Values.Get req.Query (ascii "ticket")).length < 16
      · exact Or.inl hl
      · right
        cases hp : HasPrefix (Values.Get req.Query (ascii "ticket")) (ascii "ST-")
        · rfl
        · exact absurd ⟨by omega, hp⟩ hcon
    rw [validateHandler_rejected c opts env req hbad] at hmem
    simp at hmem

/-- C1, at the tickets `ST-1` (too short), `XT-1234567890123` (wrong prefix) and at a request
without a ticket: each is answered by status 400 alone, although the transport of
`exampleEnv` would answer. -/
theorem ticket_shape_gates_transport_witness :
    validateHandler exampleClientV1 {} (exampleEnv (ascii "yes\nalice\n"))
        (exampleRequest (ascii "ST-1")) = [Effect.writeHeader 400] ∧
    validateHandler exampleClientV1 {} (exampleEnv (ascii "yes\nalice\n"))
        (exampleRequest (ascii "XT-1234567890123")) = [Effect.writeHeader 400] ∧
    validateHandler exampleClientV1 {} (exampleEnv (ascii "yes\nalice\n"))
        exampleRequestNoTicket = [Effect.writeHeader 400] :=
  ⟨(ticket_shape_gates_transport exampleClientV1 {} (exampleEnv (ascii "yes\nalice\n"))
      (exampleRequest (ascii "ST-1")) (validateHandler exampleClientV1 {}) rfl).1
      (Or.inr (Or.inl (by decide))),
   (ticket_shape_gates_transport exampleClientV1 {} (exampleEnv (ascii "yes\nalice\n"))
      (exampleRequest (ascii "XT-1234567890123")) (validateHandler exampleClientV1 {}) rfl).1
      (Or.inr (Or.inr (by decide))),
   (ticket_shape_gates_transport exampleClientV1 {} (exampleEnv (ascii "yes\nalice\n"))
      exampleRequestNoTicket (validateHandler exampleClientV1 {}) rfl).1
      (Or.inl (by decide))⟩

theorem mem_validate_trace_v1 (f : Nat) (hc : HTTPClient) (url : URL)
    (isValid : Bool) (user : Bytes) (l : List Effect) :
    Effect.v1Callback f isValid user ∈ Effect.httpDo hc (ascii "GET") url :: (l ++ [Effect.bodyClose]) ↔
      Effect.v1Callback f isValid user ∈ l := by
  simp

theorem yes_append (user rest : Bytes) :
    HasPrefix (ascii "yes\n" ++ user ++ 10 :: rest) (ascii "yes\n") = true ∧
    (ascii "yes\n" ++ user ++ 10 :: rest).drop 4 = user ++ 10 :: rest := by
  have h : ascii "yes\n" = [121, 101, 115, 10] := by decide
  rw [HasPrefix_yes, h]
  simp

theorem yes_split (result : Bytes) (h : HasPrefix result (ascii "yes\n") = true) :
    result = ascii "yes\n" ++ result.drop 4 := by
  rw [HasPrefix_yes] at h
  conv_lhs => rw [← List.take_append_drop 4 result]
  rw [h.2]

/-- C2. Version 1 decoding. With an accepted ticket, a transport answer and a body read in
full, the version 1 callback is called with `isValid = true` and a user exactly when the body
is `yes\n`, then that user (at least one byte, none of them a newline), then a newline; and a
body that does not begin with `yes\n` gives exactly one call, with `(false, "")`. -/
theorem v1_decoding (c : Client) (opts : ValidateServiceTicketOption) (env : Env)
    (req : Request) (h : Env → Request → List Effect) (hc : HTTPClient) (url : URL)
    (body : Body) (result : Bytes) (f : Nat)
    (hh : ValidateServiceTicket c opts = Except.ok h)
    (hv : c.options.version = CASVersion1)
    (hcb : c.options.v1ValidateServiceTicketCallback = some f)
    (hlen : 16 ≤ (Values.Get req.Query (ascii "ticket")).length)
    (hpre : HasPrefix (Values.Get req.Query (ascii "ticket")) (ascii "ST-") = true)
    (hhc : c.options.httpClient = some hc)
    (hurl : sendURL c opts (pretreatRequest req) (Values.Get req.Query (ascii "ticket")) = some url)
    (hdo : env.Do hc url = DoResult.ok body)
    (hread : ReadAll body = some result) :
    (∀ user, Effect.v1Callback f true user ∈ h env req ↔
      (user ≠ [] ∧ 10 ∉ user ∧ ∃ rest, result = ascii "yes\n" ++ user ++ 10 :: rest)) ∧
    (HasPrefix result (ascii "yes\n") = false →
      h env req =
        [Effect.httpDo hc (ascii "GET") url, Effect.v1Callback f false [], Effect.bodyClose]) := by
  rw [ValidateServiceTicket_ok c opts h hh,
    validateHandler_accepted c opts env req hc url body hlen hpre hhc hurl hdo,
    parseResponse_v1 c opts env body result hv hread]
  constructor
  · intro user
    rw [mem_validate_trace_v1]
    constructor
    · intro hmem
      by_cases hyes : HasPrefix result (ascii "yes\n") = true
      · rw [if_pos hyes] at hmem
        by_cases hr : IndexByte (result.drop 4) 10 < 1
        · rw [if_pos hr] at hmem; simp at hmem
        · rw [if_neg hr] at hmem
          simp only [callV1, hcb, List.mem_singleton, Effect.v1Callback.injEq, true_and] at hmem
          obtain ⟨u, rest, hsplit, hnot, hulen⟩ := IndexByte_split (result.drop 4) 10 (by omega)
          have hu : user = u := by
            rw [hmem, ← hulen, hsplit]
            simp
          subst hu
          refine ⟨?_, hnot, rest, ?_⟩
          · intro he
            rw [he] at hulen
            simp at hulen
            omega
          · rw [List.append_assoc, ← hsplit]
            exact yes_split result hyes
      · rw [if_neg hyes] at hmem
        simp [callV1, hcb] at hmem
    · rintro ⟨hne, hnot, rest, hres⟩
      have hidx : IndexByte (user ++ 10 :: rest) 10 = user.length := IndexByte_append user rest 10 hnot
      have hpos : 0 < user.length := List.length_pos.mpr hne
      rw [hres, if_pos (yes_append user rest).1, (yes_append user rest).2, hidx,
        if_neg (by omega)]
      simp [callV1, hcb]
  · intro hno
    rw [hno]
    simp [callV1, hcb]

/-- C2, at the bodies `yes\nalice\n` and `no\n`: the first gives the call `(true, "alice")`,
the second the call `(false, "")`. -/
theorem v1_decoding_witness :
    Effect.v1Callback 7 true (ascii "alice") ∈
      validateHandler exampleClientV1 {} (exampleEnv (ascii "yes\nalice\n"))
        (exampleRequest (ascii "ST-1234567890123")) ∧
    validateHandler exampleClientV1 {} (exampleEnv (ascii "no\n"))
        (exampleRequest (ascii "ST-1234567890123")) =
      [Effect.httpDo HTTPClient.default (ascii "GET") (exampleSendURLV1 (ascii "ST-1234567890123")),
        Effect.v1Callback 7 false [], Effect.bodyClose] :=
  ⟨((v1_decoding exampleClientV1 {} (exampleEnv (ascii "yes\nalice\n"))
      (exampleRequest (ascii "ST-1234567890123")) (validateHandler exampleClientV1 {})
      HTTPClient.default (exampleSendURLV1 (ascii "ST-1234567890123"))
      { data := ascii "yes\nalice\n" } (ascii "yes\nalice\n") 7
      rfl rfl rfl (by decide) (by decide) rfl (by decide) rfl rfl).1 (ascii "alice")).2
      ⟨by decide, by decide, [], by decide⟩,
   (v1_decoding exampleClientV1 {} (exampleEnv (ascii "no\n"))
      (exampleRequest (ascii "ST-1234567890123")) (validateHandler exampleClientV1 {})
      HTTPClient.default (exampleSendURLV1 (ascii "ST-1234567890123"))
      { data := ascii "no\n" } (ascii "no\n") 7
      rfl rfl rfl (by decide) (by decide) rfl (by decide) rfl rfl).2 (by decide)⟩

/-- C3. Version 1 decoding of a malformed success. With an accepted ticket, a transport answer
and a body read in full that begins with `yes\n`, when the rest of the body holds no newline
or begins with one, the handler writes status 503 and calls no callback. -/
theorem v1_malformed_yes (c : Client) (opts : ValidateServiceTicketOption) (env : Env)
    (req : Request) (h : Env → Request → List Effect) (hc : HTTPClient) (url : URL)
    (body : Body) (result : Bytes)
    (hh : ValidateServiceTicket c opts = Except.ok h)
    (hv : c.options.version = CASVersion1)
    (hlen : 16 ≤ (Values.Get req.Query (ascii "ticket")).length)
    (hpre : HasPrefix (Values.Get req.Query (ascii "ticket")) (ascii "ST-") = true)
    (hhc : c.options.httpClient = some hc)
    (hurl : sendURL c opts (pretreatRequest req) (Values.Get req.Query (ascii "ticket")) = some url)
    (hdo : env.Do hc url = DoResult.ok body)
    (hread : ReadAll body = some result)
    (hyes : HasPrefix result (ascii "yes\n") = true)
    (hbad : 10 ∉ result.drop 4 ∨ (result.drop 4).head? = some 10) :
    h env req =
      [Effect.httpDo hc (ascii "GET") url, Effect.writeHeader 503, Effect.bodyClose] ∧
    (∀ g isValid user, Effect.v1Callback g isValid user ∉ h env req) := by
  rw [ValidateServiceTicket_ok c opts h hh,
    validateHandler_accepted c opts env req hc url body hlen hpre hhc hurl hdo,
    parseResponse_v1 c opts env body result hv hread, if_pos hyes]
  have hr : IndexByte (result.drop 4) 10 < 1 := by
    rcases hbad with hnot | hhead
    · rw [IndexByte_of_not_mem _ _ hnot]; omega
    · cases hd : result.drop 4 with
      | nil => simp [IndexByte]
      | cons b bs =>
        rw [hd] at hhead
        simp only [List.head?_cons, Option.some.injEq] at hhead
        simp [IndexByte, hhead]
  rw [if_pos hr]
  simp

/-- C3, at the bodies `yes\nalice` (no newline after the user) and `yes\n\n` (empty user):
both give status 503. -/
theorem v1_malformed_yes_witness :
    validateHandler exampleClientV1 {} (exampleEnv (ascii "yes\nalice"))
        (exampleRequest (ascii "ST-1234567890123")) =
      [Effect.httpDo HTTPClient.default (ascii "GET") (exampleSendURLV1 (ascii "ST-1234567890123")),
        Effect.writeHeader 503, Effect.bodyClose] ∧
    validateHandler exampleClientV1 {} (exampleEnv (ascii "yes\n\n"))
        (exampleRequest (ascii "ST-1234567890123")) =
      [Effect.httpDo HTTPClient.default (ascii "GET") (exampleSendURLV1 (ascii "ST-1234567890123")),
        Effect.writeHeader 503, Effect.bodyClose] :=
  ⟨(v1_malformed_yes exampleClientV1 {} (exampleEnv (ascii "yes\nalice"))
      (exampleRequest (ascii "ST-1234567890123")) (validateHandler exampleClientV1 {})
      HTTPClient.default (exampleSendURLV1 (ascii "ST-1234567890123"))
      { data := ascii "yes\nalice" } (ascii "yes\nalice")
      rfl rfl (by decide) (by decide) rfl (by decide) rfl rfl (by decide)
      (Or.inl (by decide))).1,
   (v1_malformed_yes exampleClientV1 {} (exampleEnv (ascii "yes\n\n"))
      (exampleRequest (ascii "ST-1234567890123")) (validateHandler exampleClientV1 {})
      HTTPClient.default (exampleSendURLV1 (ascii "ST-1234567890123"))
      { data := ascii "yes\n\n" } (ascii "yes\n\n")
      rfl rfl (by decide) (by decide) rfl (by decide) rfl rfl (by decide)
      (Or.inr (by decide))).1⟩

/-! ## Query strings -/

theorem queryFields_ne_nil (raw : Bytes) : queryFields raw ≠ [] := by
  cases raw with
  | nil => simp [queryFields]
  | cons b bs =>
    simp only [queryFields, List.foldr_cons]
    split_ifs <;> simp

theorem queryFields_cons (b : Nat) (bs : Bytes) (hb : b ≠ 38) :
    queryFields (b :: bs) = (b :: (queryFields bs).headD []) :: (queryFields bs).tail := by
  simp [queryFields, hb]

theorem queryFields_amp (bs : Bytes) : queryFields (38 :: bs) = [] :: queryFields bs := by
  simp [queryFields]

theorem queryFields_single (a : Bytes) (ha : 38 ∉ a) : queryFields a = [a] := by
  induction a with
  | nil => simp [queryFields]
  | cons b bs ih =>
    have hb : b ≠ 38 := fun e => ha (by simp [e])
    have hbs : 38 ∉ bs := fun e => ha (by simp [e])
    rw [queryFields_cons b bs hb, ih hbs]
    simp

theorem queryFields_append (a rest : Bytes) (ha : 38 ∉ a) :
    queryFields (a ++ 38 :: rest) = a :: queryFields rest := by
  induction a with
  | nil => simp [queryFields_amp]
  | cons b bs ih =>
    have hb : b ≠ 38 := fun e => ha (by simp [e])
    have hbs : 38 ∉ bs := fun e => ha (by simp [e])
    rw [List.cons_append, queryFields_cons b _ hb, ih hbs]
    simp

theorem queryFields_joinFields (fs : List Bytes) (hne : fs ≠ []) (hfs : ∀ f ∈ fs, 38 ∉ f) :
    queryFields (joinFields fs) = fs := by
  induction fs with
  | nil => exact absurd rfl hne
  | cons f gs ih =>
    cases gs with
    | nil => simpa [joinFields] using queryFields_single f (hfs f (by simp))
    | cons g hs =>
      rw [joinFields, queryFields_append f _ (hfs f (by simp)),
        ih (by simp) (fun x hx => hfs x (List.mem_cons_of_mem _ hx))]

theorem upperhex_ne_amp (n : Nat) : upperhex n ≠ 38 := by
  unfold upperhex
  split_ifs <;> omega

theorem shouldEscape_amp : shouldEscape 38 encoding.encodeQueryComponent = true := by decide

theorem QueryEscape_no_amp (s : Bytes) : 38 ∉ QueryEscape s := by
  intro hmem
  simp only [QueryEscape, escape, List.mem_flatMap] at hmem
  obtain ⟨c, -, hc⟩ := hmem
  unfold escapeByte at hc
  split_ifs at hc with h1 h2
  · simp at hc
  · simp only [List.mem_cons, List.mem_singleton, List.not_mem_nil, or_false] at hc
    rcases hc with hc | hc | hc
    · omega
    · exact upperhex_ne_amp _ hc.symm
    · exact upperhex_ne_amp _ hc.symm
  · simp only [List.mem_singleton] at hc
    rw [← hc, shouldEscape_amp] at h2
    exact h2 rfl

theorem queryField_no_amp (key value : Bytes) (hk : 38 ∉ key) : 38 ∉ queryField key value := by
  simp only [queryField, List.mem_append, List.mem_cons, not_or]
  exact ⟨hk, by omega, QueryEscape_no_amp value⟩

theorem kFormat : ascii "format" = [102, 111, 114, 109, 97, 116] := by decide
theorem kPgtUrl : ascii "pgtUrl" = [112, 103, 116, 85, 114, 108] := by decide
theorem kRenew : ascii "renew" = [114, 101, 110, 101, 119] := by decide
theorem kService : ascii "service" = [115, 101, 114, 118, 105, 99, 101] := by decide
theorem kTicket : ascii "ticket" = [116, 105, 99, 107, 101, 116] := by decide
theorem kYes : ascii "yes" = [121, 101, 115] := by decide

theorem QueryEscape_keys :
    QueryEscape [102, 111, 114, 109, 97, 116] = [102, 111, 114, 109, 97, 116] ∧
    QueryEscape [112, 103, 116, 85, 114, 108] = [112, 103, 116, 85, 114, 108] ∧
    QueryEscape [114, 101, 110, 101, 119] = [114, 101, 110, 101, 119] ∧
    QueryEscape [115, 101, 114, 118, 105, 99, 101] = [115, 101, 114, 118, 105, 99, 101] ∧
    QueryEscape [116, 105, 99, 107, 101, 116] = [116, 105, 99, 107, 101, 116] := by decide

/-- The query `sendURL` encodes is the `&`-joined list `validationFields`. -/
theorem sendPathAndQuery_encode (c : Client) (opts : ValidateServiceTicketOption) (req : Request)
    (ticket : Bytes)
    (hv : c.options.version = 1 ∨ c.options.version = 2 ∨ c.options.version = 3) :
    ∃ q, sendPathAndQuery c opts req ticket =
        some (if c.options.version = 1 then ascii "/validate"
          else if c.options.version = 2 then ascii "/serviceValidate"
          else ascii "/p3/serviceValidate", q) ∧
      Values.Encode q =
        joinFields (validationFields c.options.version opts req.URL.String ticket) := by
  obtain ⟨renew, pgt, fmt⟩ := opts
  have p1 : CASValidateURI = ascii "/validate" := rfl
  have p2 : CASVersion2ServiceValidateURI = ascii "/serviceValidate" := rfl
  have p3 : CASVersion3ServiceValidateURI = ascii "/p3/serviceValidate" := rfl
  obtain ⟨q1, q2, q3, q4, q5⟩ := QueryEscape_keys
  rcases hv with hv | hv | hv <;> cases renew <;> by_cases hp : pgt = [] <;>
    by_cases hf : fmt = [] <;>
    simp [sendPathAndQuery, addProxyAndFormat, hv, CASVersion1, CASVersion2, CASVersion3,
      p1, p2, p3, hp, hf, validationFields, joinFields, queryField, Values.Encode, Values.Add,
      sortStrings, insertKey, encodeKey, Values.lookup, bytesLess, kFormat, kPgtUrl, kRenew,
      kService, kTicket, kYes, q1, q2, q3, q4, q5]

theorem fieldValue_same (k v : Bytes) : fieldValue k (queryField k v) = some (QueryEscape v) := by
  have e : queryField k v = (k ++ [61]) ++ QueryEscape v := by simp [queryField]
  have hl : (k ++ [61]).length = k.length + 1 := by simp
  have hp : HasPrefix (queryField k v) (k ++ [61]) = true := by
    rw [e]
    simp only [HasPrefix, Bool.and_eq_true, decide_eq_true_eq, beq_iff_eq]
    exact ⟨by simp, List.take_left' rfl⟩
  rw [fieldValue, if_pos hp, e, ← hl, List.drop_left' rfl]

theorem fieldValue_diff (a b : Nat) (k k2 v : Bytes) (hab : a ≠ b) :
    fieldValue (b :: k2) (queryField (a :: k) v) = none := by
  have hp : HasPrefix (queryField (a :: k) v) ((b :: k2) ++ [61]) = false := by
    simp [HasPrefix, queryField, hab]
  rw [fieldValue, hp]
  simp

theorem validationFields_no_amp (version : ProtocolVersion) (opts : ValidateServiceTicketOption)
    (service ticket : Bytes) : ∀ f ∈ validationFields version opts service ticket, 38 ∉ f := by
  intro f hf
  simp only [validationFields, List.mem_append, List.mem_cons, List.mem_singleton,
    List.not_mem_nil, or_false] at hf
  rcases hf with ((hf | hf) | hf) | hf | hf
  · split_ifs at hf
    · rw [List.mem_singleton.mp hf]; exact queryField_no_amp _ _ (by decide)
    · simp at hf
  · split_ifs at hf
    · rw [List.mem_singleton.mp hf]; exact queryField_no_amp _ _ (by decide)
    · simp at hf
  · split_ifs at hf
    · rw [List.mem_singleton.mp hf]; exact queryField_no_amp _ _ (by decide)
    · simp at hf
  · rw [hf]; exact queryField_no_amp _ _ (by decide)
  · rw [hf]; exact queryField_no_amp _ _ (by decide)

theorem queryFields_validation (version : ProtocolVersion) (opts : ValidateServiceTicketOption)
    (service ticket : Bytes) :
    queryFields (joinFields (validationFields version opts service ticket)) =
      validationFields version opts service ticket :=
  queryFields_joinFields _ (by simp [validationFields])
    (validationFields_no_amp version opts service ticket)

/-- The five parameters of the validation query, read back from the encoded string. -/
theorem queryParam_validation (version : ProtocolVersion) (opts : ValidateServiceTicketOption)
    (service ticket : Bytes) :
    queryParam (joinFields (validationFields version opts service ticket)) (ascii "service") =
      some (QueryEscape service) ∧
    queryParam (joinFields (validationFields version opts service ticket)) (ascii "ticket") =
      some (QueryEscape ticket) ∧
    queryParam (joinFields (validationFields version opts service ticket)) (ascii "renew") =
      (if opts.Renew = true then some (QueryEscape (ascii "yes")) else none) ∧
    queryParam (joinFields (validationFields version opts service ticket)) (ascii "pgtUrl") =
      (if 2 ≤ version ∧ opts.PGTUrl ≠ [] then some (QueryEscape opts.PGTUrl) else none) ∧
    queryParam (joinFields (validationFields version opts service ticket)) (ascii "format") =
      (if 2 ≤ version ∧ opts.Format ≠ [] then some (QueryEscape opts.Format) else none) := by
  simp only [queryParam, queryFields_validation]
  obtain ⟨renew, pgt, fmt⟩ := opts
  simp only [kFormat, kPgtUrl, kRenew, kService, kTicket]
  refine ⟨?_, ?_, ?_, ?_, ?_⟩ <;> cases renew <;> by_cases hv : 2 ≤ version <;>
    by_cases hp : pgt = [] <;> by_cases hf : fmt = [] <;>
    simp [validationFields, hv, hp, hf, fieldValue_same, fieldValue_diff, kFormat, kPgtUrl,
      kRenew, kService, kTicket, List.findSome?]

/-! ## Unescaping an escaped query component -/

theorem upperhex_unhex : ∀ n, n < 16 → ishex (upperhex n) = true ∧ unhex (upperhex n) = n := by
  decide

theorem unescape_plus (rest : Bytes) (mode : encoding) :
    unescape (43 :: rest) mode =
      (unescape rest mode).map (fun t => (if mode = encoding.encodeQueryComponent then 32 else 43) :: t) := by
  rw [unescape.eq_def]
  simp
theorem unescape_other (c : Nat) (rest : Bytes) (mode : encoding) (h37 : c ≠ 37) (h43 : c ≠ 43) :
    unescape (c :: rest) mode = (unescape rest mode).map (fun t => c :: t) := by
  rw [unescape.eq_def]
  simp [h37, h43]
theorem unescape_pct (a b : Nat) (rest : Bytes) (mode : encoding) (ha : ishex a = true) (hb : ishex b = true) :
    unescape (37 :: a :: b :: rest) mode = (unescape rest mode).map (fun t => (unhex a * 16 + unhex b) :: t) := by
  rw [unescape.eq_def]
  simp [ha, hb]

theorem unescape_escapeByte (c : Nat) (rest : Bytes) (hc : c < 256) :
    unescape (escapeByte encoding.encodeQueryComponent c ++ rest) encoding.encodeQueryComponent =
      (unescape rest encoding.encodeQueryComponent).map (fun t => c :: t) := by
  unfold escapeByte
  split_ifs with h1 h2
  · rw [h1.1, List.singleton_append, unescape_plus]
    simp
  · obtain ⟨hi1, hu1⟩ := upperhex_unhex (c / 16) (by omega)
    obtain ⟨hi2, hu2⟩ := upperhex_unhex (c % 16) (by omega)
    have hval : c / 16 * 16 + c % 16 = c := by omega
    have e : [37, upperhex (c / 16), upperhex (c % 16)] ++ rest =
        37 :: upperhex (c / 16) :: upperhex (c % 16) :: rest := rfl
    rw [e, unescape_pct _ _ _ _ hi1 hi2, hu1, hu2, hval]
  · have h37 : c ≠ 37 := by
      intro e; rw [e] at h2; exact h2 (by decide)
    have h43 : c ≠ 43 := by
      intro e; rw [e] at h2; exact h2 (by decide)
    rw [List.singleton_append, unescape_other c rest _ h37 h43]

/-- Function `QueryUnescape` undoes `QueryEscape`. -/
theorem unescape_QueryEscape (s : Bytes) (hs : ∀ b ∈ s, b < 256) :
    unescape (QueryEscape s) encoding.encodeQueryComponent = some s := by
  induction s with
  | nil => rfl
  | cons c cs ih =>
    have hc : c < 256 := hs c (by simp)
    have hcs : ∀ b ∈ cs, b < 256 := fun b hb => hs b (List.mem_cons_of_mem _ hb)
    have e : QueryEscape (c :: cs) =
        escapeByte encoding.encodeQueryComponent c ++ QueryEscape cs := by
      simp [QueryEscape, escape]
    rw [e, unescape_escapeByte c _ hc, ih hcs]
    rfl

theorem validateHandler_head (c : Client) (opts : ValidateServiceTicketOption) (env : Env)
    (req : Request) (hc : HTTPClient) (url : URL)
    (hlen : 16 ≤ (Values.Get req.Query (ascii "ticket")).length)
    (hpre : HasPrefix (Values.Get req.Query (ascii "ticket")) (ascii "ST-") = true)
    (hhc : c.options.httpClient = some hc)
    (hurl : sendURL c opts (pretreatRequest req) (Values.Get req.Query (ascii "ticket")) = some url) :
    (validateHandler c opts env req).head? = some (Effect.httpDo hc (ascii "GET") url) := by
  have hgood : ¬ ((Values.Get req.Query (ascii "ticket")).length < 16 ∨
      HasPrefix (Values.Get req.Query (ascii "ticket")) (ascii "ST-") = false) := by
    rw [hpre]; simp; omega
  simp only [validateHandler, if_neg hgood, hurl, hhc]
  cases env.Do hc url <;> simp

/-- The URL `sendURL` composes for versions 1 to 3: its path and its encoded query. -/
theorem sendURL_spec (c : Client) (opts : ValidateServiceTicketOption) (req : Request)
    (ticket : Bytes)
    (hv : c.options.version = 1 ∨ c.options.version = 2 ∨ c.options.version = 3) :
    ∃ url, sendURL c opts req ticket = some url ∧
      url.Path = (if c.options.version = 1 then ascii "/validate"
        else if c.options.version = 2 then ascii "/serviceValidate"
        else ascii "/p3/serviceValidate") ∧
      url.RawQuery = joinFields (validationFields c.options.version opts req.URL.String ticket) := by
  obtain ⟨q, hq, henc⟩ := sendPathAndQuery_encode c opts req ticket hv
  refine ⟨_, by rw [sendURL, hq]; rfl, rfl, henc⟩

/-- C4. For an accepted ticket and a client of version 1, 2 or 3, the handler's first action is
the transport call, for a URL whose path is `/validate`, `/serviceValidate` or
`/p3/serviceValidate` according to the version and whose query has a `service` parameter (the
escaped URL of the inbound request as seen from outside) and a `ticket` parameter (the escaped
inbound ticket, which unescapes to the inbound ticket). -/
theorem validation_url_path_service_ticket (c : Client) (opts : ValidateServiceTicketOption)
    (env : Env) (req : Request) (h : Env → Request → List Effect) (hc : HTTPClient)
    (hh : ValidateServiceTicket c opts = Except.ok h)
    (hv : c.options.version = 1 ∨ c.options.version = 2 ∨ c.options.version = 3)
    (hlen : 16 ≤ (Values.Get req.Query (ascii "ticket")).length)
    (hpre : HasPrefix (Values.Get req.Query (ascii "ticket")) (ascii "ST-") = true)
    (hhc : c.options.httpClient = some hc) :
    ∃ url, (h env req).head? = some (Effect.httpDo hc (ascii "GET") url) ∧
      url.Path = (if c.options.version = 1 then ascii "/validate"
        else if c.options.version = 2 then ascii "/serviceValidate"
        else ascii "/p3/serviceValidate") ∧
      queryParam url.RawQuery (ascii "service") =
        some (QueryEscape (pretreatRequest req).URL.String) ∧
      queryParam url.RawQuery (ascii "ticket") =
        some (QueryEscape (Values.Get req.Query (ascii "ticket"))) ∧
      ((∀ b ∈ Values.Get req.Query (ascii "ticket"), b < 256) →
        (queryParam url.RawQuery (ascii "ticket")).bind QueryUnescape =
          some (Values.Get req.Query (ascii "ticket"))) := by
  obtain ⟨url, hurl, hpath, hraw⟩ :=
    sendURL_spec c opts (pretreatRequest req) (Values.Get req.Query (ascii "ticket")) hv
  refine ⟨url, ?_, hpath, ?_, ?_, ?_⟩
  · rw [ValidateServiceTicket_ok c opts h hh]
    exact validateHandler_head c opts env req hc url hlen hpre hhc hurl
  · rw [hraw]; exact (queryParam_validation _ _ _ _).1
  · rw [hraw]; exact (queryParam_validation _ _ _ _).2.1
  · intro hbytes
    rw [hraw, (queryParam_validation _ _ _ _).2.1]
    exact unescape_QueryEscape _ hbytes

/-- C4, at the version 3 example client and the ticket `ST-1234567890123`. -/
theorem validation_url_path_service_ticket_witness :
    ∃ url, (validateHandler exampleClientV3 { Format := ascii "JSON" } (exampleEnv [])
        (exampleRequest (ascii "ST-1234567890123"))).head? =
        some (Effect.httpDo HTTPClient.default (ascii "GET") url) ∧
      url.Path = ascii "/p3/serviceValidate" ∧
      queryParam url.RawQuery (ascii "service") =
        some (ascii "https%3A%2F%2Fapp.example.org%2Fcallback%3Fticket%3DST-1234567890123") ∧
      queryParam url.RawQuery (ascii "ticket") = some (ascii "ST-1234567890123") ∧
      ((∀ b ∈ ascii "ST-1234567890123", b < 256) →
        (queryParam url.RawQuery (ascii "ticket")).bind QueryUnescape =
          some (ascii "ST-1234567890123")) :=
  validation_url_path_service_ticket exampleClientV3 { Format := ascii "JSON" } (exampleEnv [])
    (exampleRequest (ascii "ST-1234567890123"))
    (validateHandler exampleClientV3 { Format := ascii "JSON" }) HTTPClient.default
    rfl (by decide) (by decide) (by decide) rfl

/-- C5, as stated, fails: a version 1 client asked for `Renew` sends `renew=yes`. -/
theorem renew_sent_for_version_1 :
    exampleClientV1.options.version = 1 ∧
    (validateHandler exampleClientV1 { Renew := true } (exampleEnv (ascii "no\n"))
        (exampleRequest (ascii "ST-1234567890123"))).head? =
      some (Effect.httpDo HTTPClient.default (ascii "GET")
        { exampleServerURL with
          Path := ascii "/validate",
          RawQuery := ascii ("renew=yes&service=https%3A%2F%2Fapp.example.org%2Fcallback" ++
            "%3Fticket%3DST-1234567890123&ticket=ST-1234567890123") }) ∧
    queryParam (ascii ("renew=yes&service=https%3A%2F%2Fapp.example.org%2Fcallback" ++
      "%3Fticket%3DST-1234567890123&ticket=ST-1234567890123")) (ascii "renew") =
      some (ascii "yes") := by
  decide

/-- C5, amended. For an accepted ticket and a client of version 1, 2 or 3, the query of the
URL handed to the transport has a `renew` parameter exactly when `Renew` is set (whatever the
version), a `pgtUrl` parameter exactly when `PGTUrl` is non-empty and the version is at least
2, and a `format` parameter exactly when `Format` is non-empty and the version is at least 2. -/
theorem validation_url_optional_params (c : Client) (opts : ValidateServiceTicketOption)
    (env : Env) (req : Request) (h : Env → Request → List Effect) (hc : HTTPClient)
    (hh : ValidateServiceTicket c opts = Except.ok h)
    (hv : c.options.version = 1 ∨ c.options.version = 2 ∨ c.options.version = 3)
    (hlen : 16 ≤ (Values.Get req.Query (ascii "ticket")).length)
    (hpre : HasPrefix (Values.Get req.Query (ascii "ticket")) (ascii "ST-") = true)
    (hhc : c.options.httpClient = some hc) :
    ∃ url, (h env req).head? = some (Effect.httpDo hc (ascii "GET") url) ∧
      ((queryParam url.RawQuery (ascii "renew")).isSome = true ↔ opts.Renew = true) ∧
      ((queryParam url.RawQuery (ascii "pgtUrl")).isSome = true ↔
        (opts.PGTUrl ≠ [] ∧ 2 ≤ c.options.version)) ∧
      ((queryParam url.RawQuery (ascii "format")).isSome = true ↔
        (opts.Format ≠ [] ∧ 2 ≤ c.options.version)) := by
  obtain ⟨url, hurl, -, hraw⟩ :=
    sendURL_spec c opts (pretreatRequest req) (Values.Get req.Query (ascii "ticket")) hv
  obtain ⟨-, -, hr, hp, hf⟩ := queryParam_validation c.options.version opts
    (pretreatRequest req).URL.String (Values.Get req.Query (ascii "ticket"))
  refine ⟨url, ?_, ?_, ?_, ?_⟩
  · rw [ValidateServiceTicket_ok c opts h hh]
    exact validateHandler_head c opts env req hc url hlen hpre hhc hurl
  · rw [hraw, hr]; split_ifs with hc1 <;> simp [hc1]
  · rw [hraw, hp]; split_ifs with hc1
    · simp [hc1.1, hc1.2]
    · simp only [Option.isSome_none, Bool.false_eq_true, false_iff]
      exact fun hcon => hc1 ⟨hcon.2, hcon.1⟩
  · rw [hraw, hf]; split_ifs with hc1
    · simp [hc1.1, hc1.2]
    · simp only [Option.isSome_none, Bool.false_eq_true, false_iff]
      exact fun hcon => hc1 ⟨hcon.2, hcon.1⟩

/-- C5 amended, at a version 1 client asked for `Renew`, `PGTUrl` and `Format`: only `renew`
is sent. -/
theorem validation_url_optional_params_witness :
    ∃ url, (validateHandler exampleClientV1
          { Renew := true, PGTUrl := ascii "https://app.example.org/pgt", Format := ascii "JSON" }
          (exampleEnv (ascii "no\n")) (exampleRequest (ascii "ST-1234567890123"))).head? =
        some (Effect.httpDo HTTPClient.default (ascii "GET") url) ∧
      ((queryParam url.RawQuery (ascii "renew")).isSome = true ↔ true = true) ∧
      ((queryParam url.RawQuery (ascii "pgtUrl")).isSome = true ↔
        (ascii "https://app.example.org/pgt" ≠ [] ∧ 2 ≤ 1)) ∧
      ((queryParam url.RawQuery (ascii "format")).isSome = true ↔
        (ascii "JSON" ≠ [] ∧ 2 ≤ 1)) :=
  validation_url_optional_params exampleClientV1
    { Renew := true, PGTUrl := ascii "https://app.example.org/pgt", Format := ascii "JSON" }
    (exampleEnv (ascii "no\n")) (exampleRequest (ascii "ST-1234567890123"))
    (validateHandler exampleClientV1
      { Renew := true, PGTUrl := ascii "https://app.example.org/pgt", Format := ascii "JSON" })
    HTTPClient.default rfl (by decide) (by decide) (by decide) rfl

/-! ## The handler of `RedirectToServer` -/

theorem kGateway : ascii "gateway" = [103, 97, 116, 101, 119, 97, 121] := by decide
theorem kMethod : ascii "method" = [109, 101, 116, 104, 111, 100] := by decide
theorem kTrue : ascii "true" = [116, 114, 117, 101] := by decide

theorem QueryEscape_redirect_keys :
    QueryEscape [103, 97, 116, 101, 119, 97, 121] = [103, 97, 116, 101, 119, 97, 121] ∧
    QueryEscape [109, 101, 116, 104, 111, 100] = [109, 101, 116, 104, 111, 100] := by decide

theorem RedirectToServer_ok (c : Client) (opts : RedirectToServerOption)
    (h : Request → List Effect) (hh : RedirectToServer c opts = Except.ok h) :
    h = redirectHandler c opts := by
  unfold RedirectToServer at hh
  split_ifs at hh
  exact (Except.ok.inj hh).symm

theorem pretreatRequest_visible (req : Request) :
    (pretreatRequest req).URL.Scheme = visibleScheme req ∧
    (pretreatRequest req).URL.Host = visibleHost req :=
  ⟨rfl, rfl⟩

/-- The query the redirect handler encodes is the `&`-joined list `redirectFields`. -/
theorem redirectQuery_encode (opts : RedirectToServerOption) (req : Request) :
    Values.Encode (redirectQuery opts req) =
      joinFields (redirectFields opts
        (if opts.Service.head? = some 47
          then req.URL.Scheme ++ ascii "://" ++ req.URL.Host ++ opts.Service
          else opts.Service)) := by
  obtain ⟨service, renew, gateway, method⟩ := opts
  obtain ⟨-, -, q3, q4, -⟩ := QueryEscape_keys
  obtain ⟨q6, q7⟩ := QueryEscape_redirect_keys
  by_cases hs : service.head? = some 47 <;> cases renew <;> cases gateway <;>
    by_cases hm : method = [] <;>
    simp [redirectQuery, hs, hm, redirectFields, joinFields, queryField, Values.Encode,
      Values.Add, sortStrings, insertKey, encodeKey, Values.lookup, bytesLess, kGateway,
      kMethod, kRenew, kService, kTrue, q3, q4, q6, q7]

theorem redirectFields_no_amp (opts : RedirectToServerOption) (service : Bytes) :
    ∀ f ∈ redirectFields opts service, 38 ∉ f := by
  intro f hf
  simp only [redirectFields, List.mem_append, List.mem_singleton] at hf
  rcases hf with ((hf | hf) | hf) | hf
  · split_ifs at hf
    · rw [List.mem_singleton.mp hf]; exact queryField_no_amp _ _ (by decide)
    · simp at hf
  · split_ifs at hf
    · rw [List.mem_singleton.mp hf]; exact queryField_no_amp _ _ (by decide)
    · simp at hf
  · split_ifs at hf
    · rw [List.mem_singleton.mp hf]; exact queryField_no_amp _ _ (by decide)
    · simp at hf
  · rw [hf]; exact queryField_no_amp _ _ (by decide)

theorem queryParam_redirect_service (opts : RedirectToServerOption) (service : Bytes) :
    queryParam (joinFields (redirectFields opts service)) (ascii "service") =
      some (QueryEscape service) := by
  rw [queryParam, queryFields_joinFields _ (by simp [redirectFields])
    (redirectFields_no_amp opts service)]
  obtain ⟨s, renew, gateway, method⟩ := opts
  simp only [kService]
  cases renew <;> cases gateway <;> by_cases hm : method = [] <;>
    simp [redirectFields, hm, fieldValue_same, fieldValue_diff, kGateway, kMethod, kRenew,
      kService, List.findSome?]

theorem joinFields_ne_nil (fs : List Bytes) (hne : fs ≠ []) (hfs : ∀ f ∈ fs, f ≠ []) :
    joinFields fs ≠ [] := by
  cases fs with
  | nil => exact absurd rfl hne
  | cons f gs =>
    cases gs with
    | nil => simpa [joinFields] using hfs f (by simp)
    | cons g hs => simp [joinFields]

/-- Function `URL.String` writes the query after a `?`, and after the query nothing or a `#`
with the fragment. -/
theorem URL_String_query (u : URL) (hq : u.RawQuery ≠ []) :
    ∃ pre post, u.String = pre ++ 63 :: u.RawQuery ++ post ∧
      (post = [] ∨ post.head? = some 35) := by
  refine ⟨if u.Opaque ≠ [] then (if u.Scheme ≠ [] then u.Scheme ++ [58] else []) ++ u.Opaque
    else u.hierPart, if u.Fragment ≠ [] then 35 :: u.EscapedFragment else [], ?_, ?_⟩
  · by_cases hf : u.Fragment = []
    · simp [URL.String, hq, hf]
    · simp [URL.String, hq, hf]
  · by_cases hf : u.Fragment = []
    · simp [hf]
    · simp [hf]

/-- C10. The handler returned by `RedirectToServer` adds one `Location` header and then writes
status 302. The location is the server URL with path `/login` and an encoded query, written
after a `?` and followed by nothing or by `#fragment`; the `service` parameter of that query
is the escaped `scheme://host` + `Service` for a `Service` beginning with `/` (scheme and host
as visible from outside: the `X-Forwarded-Proto` and `X-Forwarded-Host` headers when present),
and the escaped `Service` itself otherwise. -/
theorem redirect_location_service (c : Client) (opts : RedirectToServerOption) (req : Request)
    (h : Request → List Effect) (hh : RedirectToServer c opts = Except.ok h) :
    ∃ rawQuery pre post,
      h req = [Effect.headerAdd (ascii "Location") (pre ++ 63 :: rawQuery ++ post),
        Effect.writeHeader 302] ∧
      (post = [] ∨ post.head? = some 35) ∧
      pre ++ 63 :: rawQuery ++ post =
        URL.String { c.options.serverURL with Path := ascii "/login", RawQuery := rawQuery } ∧
      queryParam rawQuery (ascii "service") =
        some (QueryEscape
          (if opts.Service.head? = some 47
            then visibleScheme req ++ ascii "://" ++ visibleHost req ++ opts.Service
            else opts.Service)) := by
  rw [RedirectToServer_ok c opts h hh]
  have henc := redirectQuery_encode opts (pretreatRequest req)
  rw [(pretreatRequest_visible req).1, (pretreatRequest_visible req).2] at henc
  have hne : Values.Encode (redirectQuery opts (pretreatRequest req)) ≠ [] := by
    rw [henc]
    refine joinFields_ne_nil _ (by simp [redirectFields]) ?_
    intro f hf
    simp only [redirectFields, List.mem_append, List.mem_singleton] at hf
    rcases hf with ((hf | hf) | hf) | hf
    · split_ifs at hf <;> simp_all [queryField]
    · split_ifs at hf <;> simp_all [queryField]
    · split_ifs at hf <;> simp_all [queryField]
    · simp [hf, queryField]
  obtain ⟨pre, post, hstr, hpost⟩ := URL_String_query
    { c.options.serverURL with
      Path := CASLoginURI,
      RawQuery := Values.Encode (redirectQuery opts (pretreatRequest req)) } hne
  refine ⟨Values.Encode (redirectQuery opts (pretreatRequest req)), pre, post, ?_, hpost, ?_, ?_⟩
  · simp only [redirectHandler, StatusFound]
    rw [hstr]
  · rw [← hstr]
    rfl
  · rw [henc]
    exact queryParam_redirect_service opts _

/-- C10, at `Service = "/home"`: for a TLS request to host `app.example.org` and for a proxied
request forwarded as `https` / `app.example.org`, the `Location` header is
`https://cas.example.org/login?service=https%3A%2F%2Fapp.example.org%2Fhome`. -/
theorem redirect_location_service_witness :
    (∃ rawQuery pre post,
      redirectHandler exampleClientV1 { Service := ascii "/home" } exampleProxiedVisit =
        [Effect.headerAdd (ascii "Location") (pre ++ 63 :: rawQuery ++ post),
          Effect.writeHeader 302] ∧
      (post = [] ∨ post.head? = some 35) ∧
      pre ++ 63 :: rawQuery ++ post =
        URL.String { exampleServerURL with Path := ascii "/login", RawQuery := rawQuery } ∧
      queryParam rawQuery (ascii "service") =
        some (ascii "https%3A%2F%2Fapp.example.org%2Fhome")) ∧
    redirectHandler exampleClientV1 { Service := ascii "/home" } exampleVisit =
      [Effect.headerAdd (ascii "Location")
          (ascii "https://cas.example.org/login?service=https%3A%2F%2Fapp.example.org%2Fhome"),
        Effect.writeHeader 302] ∧
    redirectHandler exampleClientV1 { Service := ascii "/home" } exampleProxiedVisit =
      [Effect.headerAdd (ascii "Location")
          (ascii "https://cas.example.org/login?service=https%3A%2F%2Fapp.example.org%2Fhome"),
        Effect.writeHeader 302] :=
  ⟨redirect_location_service exampleClientV1 { Service := ascii "/home" } exampleProxiedVisit
      (redirectHandler exampleClientV1 { Service := ascii "/home" }) rfl,
    by decide, by decide⟩

/-- C9, evaluated. For the server URL `https://cas.example.org/cas` the login redirect goes to
`https://cas.example.org/login?...` and the validation request of each version to
`https://cas.example.org/validate?...`, `.../serviceValidate?...`, `.../p3/serviceValidate?...`:
the path `/cas` of the server URL is replaced, not kept. -/
theorem server_url_path_replaced :
    exampleServerURL.String = ascii "https://cas.example.org/cas" ∧
    RedirectToServer exampleClientV1 { Service := ascii "/home" } =
      Except.ok (redirectHandler exampleClientV1 { Service := ascii "/home" }) ∧
    redirectHandler exampleClientV1 { Service := ascii "/home" } exampleVisit =
      [Effect.headerAdd (ascii "Location")
          (ascii "https://cas.example.org/login?service=https%3A%2F%2Fapp.example.org%2Fhome"),
        Effect.writeHeader 302] ∧
    (sendURL exampleClientV1 {} (pretreatRequest (exampleRequest (ascii "ST-1234567890123")))
        (ascii "ST-1234567890123")).map URL.String =
      some (ascii ("https://cas.example.org/validate?service=https%3A%2F%2Fapp.example.org" ++
        "%2Fcallback%3Fticket%3DST-1234567890123&ticket=ST-1234567890123")) ∧
    (sendURL exampleClientV2 {} (pretreatRequest (exampleRequest (ascii "ST-1234567890123")))
        (ascii "ST-1234567890123")).map URL.String =
      some (ascii ("https://cas.example.org/serviceValidate?service=https%3A%2F%2F" ++
        "app.example.org%2Fcallback%3Fticket%3DST-1234567890123&ticket=ST-1234567890123")) ∧
    (sendURL exampleClientV3 {} (pretreatRequest (exampleRequest (ascii "ST-1234567890123")))
        (ascii "ST-1234567890123")).map URL.String =
      some (ascii ("https://cas.example.org/p3/serviceValidate?service=https%3A%2F%2F" ++
        "app.example.org%2Fcallback%3Fticket%3DST-1234567890123&ticket=ST-1234567890123")) :=
  ⟨by decide, rfl, by decide, by decide, by decide, by decide⟩

/-! ## Versions 2 and 3: decoding and dispatch -/

theorem parseResponse_no_v3Callback (c : Client) (opts : ValidateServiceTicketOption) (env : Env)
    (body : Body) (g : Nat) (r : ServiceResponse) :
    Effect.v3Callback g r ∉ parseResponse c opts env body := by
  simp only [parseResponse, callV1, callV2]
  repeat' split
  all_goals simp

theorem validateHandler_no_v3Callback (c : Client) (opts : ValidateServiceTicketOption)
    (env : Env) (req : Request) (g : Nat) (r : ServiceResponse) :
    Effect.v3Callback g r ∉ validateHandler c opts env req := by
  have hp := parseResponse_no_v3Callback c opts env
  simp only [validateHandler]
  repeat' split
  all_goals simp [hp]

theorem parseResponse_v23 (c : Client) (opts : ValidateServiceTicketOption) (env : Env)
    (body : Body) (hv : c.options.version = 2 ∨ c.options.version = 3) :
    parseResponse c opts env body =
      if opts.Format = ascii "XML" then
        match env.xmlDecode body with
        | none => [Effect.writeHeader 503]
        | some sericeResp => callV2 c sericeResp
      else if opts.Format = ascii "JSON" then
        match env.jsonDecode body with
        | none => [Effect.writeHeader 503]
        | some sericeResp => callV2 c sericeResp
      else [Effect.writeHeader 500] := by
  have h1 : ¬ c.options.version = CASVersion1 := by
    rcases hv with hv | hv <;> rw [hv] <;> decide
  have h2 : c.options.version = CASVersion2 ∨ c.options.version = CASVersion3 := hv
  simp only [parseResponse, if_neg h1, if_pos h2, StatusServiceUnavailable,
    StatusInternalServerError]

/-- C6, evaluated. `NewClient` for version 3 with a version 3 callback `f` stores `f` in
`v3ValidateServiceTicketCallback` and leaves `v2ValidateServiceTicketCallback` nil; no
validation by that client ever calls `f`, and the dispatch after a successful decode, which
goes through `v2ValidateServiceTicketCallback`, panics on the nil function. -/
theorem v3_callback_never_called (u : URL) (f : Nat) (opts : ValidateServiceTicketOption)
    (env : Env) (req : Request) :
    NewClient CASVersion3 (some u)
        [WithValidateServiceTicketCallback
          (CallbackValue.V3ValidateServiceTicketCallbackFunc (some f))] =
      NewClientResult.ok
        { options :=
            { version := 3, serverURL := u, httpClient := some HTTPClient.default,
              v3ValidateServiceTicketCallback := some f } } ∧
    (∀ g r, Effect.v3Callback g r ∉
      validateHandler
        { options :=
            { version := 3, serverURL := u, httpClient := some HTTPClient.default,
              v3ValidateServiceTicketCallback := some f } } opts env req) ∧
    (∀ body,
      parseResponse
        { options :=
            { version := 3, serverURL := u, httpClient := some HTTPClient.default,
              v3ValidateServiceTicketCallback := some f } }
        { Format := ascii "XML" } (exampleDecodingEnv body exampleSuccess) { data := body } =
      [Effect.nilPanic]) ∧
    validateHandler exampleClientV3 { Format := ascii "XML" }
        (exampleDecodingEnv [] exampleSuccess) (exampleRequest (ascii "ST-1234567890123")) =
      [Effect.httpDo HTTPClient.default (ascii "GET")
          (exampleSendURLV3 (ascii "ST-1234567890123") (ascii "XML")),
        Effect.nilPanic, Effect.bodyClose] := by
  refine ⟨rfl, fun g r => validateHandler_no_v3Callback _ _ _ _ g r, fun body => ?_, by decide⟩
  rw [parseResponse_v23 _ _ _ _ (Or.inr rfl)]
  rfl

/-- C7, evaluated. With `Format` unset, `ValidateServiceTicket` returns a handler, and for the
clients of version 2 and 3 that handler, given an accepted ticket and any answer of the
transport, writes status 500: nothing is decoded and no callback is called, whatever the
decoders would make of the body. With `Format` set to XML the same version 2 client decodes
the answer and calls the callback. -/
theorem unset_format_gives_500 (env : Env) (body : Body) :
    ValidateServiceTicket exampleClientV2 {} = Except.ok (validateHandler exampleClientV2 {}) ∧
    validateHandler exampleClientV2 {}
        { env with Do := fun _ _ => DoResult.ok body }
        (exampleRequest (ascii "ST-1234567890123")) =
      [Effect.httpDo HTTPClient.default (ascii "GET")
          (exampleSendURLV2 (ascii "ST-1234567890123") []),
        Effect.writeHeader 500, Effect.bodyClose] ∧
    validateHandler exampleClientV3 {}
        { env with Do := fun _ _ => DoResult.ok body }
        (exampleRequest (ascii "ST-1234567890123")) =
      [Effect.httpDo HTTPClient.default (ascii "GET")
          (exampleSendURLV3 (ascii "ST-1234567890123") []),
        Effect.writeHeader 500, Effect.bodyClose] ∧
    validateHandler exampleClientV2 { Format := ascii "XML" }
        (exampleDecodingEnv [] exampleSuccess) (exampleRequest (ascii "ST-1234567890123")) =
      [Effect.httpDo HTTPClient.default (ascii "GET")
          (exampleSendURLV2 (ascii "ST-1234567890123") (ascii "XML")),
        Effect.v2Callback 7 exampleSuccess, Effect.bodyClose] := by
  refine ⟨rfl, ?_, ?_, by decide⟩
  · have hurl : sendURL exampleClientV2 {} (pretreatRequest (exampleRequest (ascii "ST-1234567890123")))
        (Values.Get (exampleRequest (ascii "ST-1234567890123")).Query (ascii "ticket")) =
        some (exampleSendURLV2 (ascii "ST-1234567890123") []) := by decide
    rw [validateHandler_accepted exampleClientV2 {} _ _ HTTPClient.default _ body (by decide)
      (by decide) rfl hurl rfl, parseResponse_v23 _ _ _ _ (Or.inl rfl)]
    rfl
  · have hurl : sendURL exampleClientV3 {} (pretreatRequest (exampleRequest (ascii "ST-1234567890123")))
        (Values.Get (exampleRequest (ascii "ST-1234567890123")).Query (ascii "ticket")) =
        some (exampleSendURLV3 (ascii "ST-1234567890123") []) := by decide
    rw [validateHandler_accepted exampleClientV3 {} _ _ HTTPClient.default _ body (by decide)
      (by decide) rfl hurl rfl, parseResponse_v23 _ _ _ _ (Or.inr rfl)]
    rfl

/-- C8, as stated, fails: for a version 2 client with `Format` JSON and the body `{}`, which
decodes without error into a response with neither `Success` nor `Failure`, the callback is
called with that response and no status 503 is written. -/
theorem callback_gets_empty_response :
    validateHandler exampleClientV2 { Format := ascii "JSON" } emptyObjectEnv
        (exampleRequest (ascii "ST-1234567890123")) =
      [Effect.httpDo HTTPClient.default (ascii "GET")
          (exampleSendURLV2 (ascii "ST-1234567890123") (ascii "JSON")),
        Effect.v2Callback 7 {}, Effect.bodyClose] ∧
    ({} : ServiceResponse).Success = none ∧ ({} : ServiceResponse).Failure = none := by
  decide

/-- C8, amended. For a client of version 2 or 3, an accepted ticket and a transport answer,
with `Format` XML or JSON. When the decoder for that format returns an error, the handler
writes status 503 and calls no callback. When it returns a response, the handler writes no
status 503, whatever the `Success` and `Failure` fields of the response are; and a version 2
client with its callback configured calls that callback, once, with exactly the response the
decoder returned. -/
theorem structured_response_dispatch (c : Client) (opts : ValidateServiceTicketOption)
    (env : Env) (req : Request) (h : Env → Request → List Effect) (hc : HTTPClient) (url : URL)
    (body : Body)
    (hh : ValidateServiceTicket c opts = Except.ok h)
    (hv : c.options.version = 2 ∨ c.options.version = 3)
    (hlen : 16 ≤ (Values.Get req.Query (ascii "ticket")).length)
    (hpre : HasPrefix (Values.Get req.Query (ascii "ticket")) (ascii "ST-") = true)
    (hhc : c.options.httpClient = some hc)
    (hurl : sendURL c opts (pretreatRequest req) (Values.Get req.Query (ascii "ticket")) = some url)
    (hdo : env.Do hc url = DoResult.ok body) :
    ((opts.Format = ascii "XML" ∧ env.xmlDecode body = none) ∨
        (opts.Format = ascii "JSON" ∧ env.jsonDecode body = none) →
      h env req =
        [Effect.httpDo hc (ascii "GET") url, Effect.writeHeader 503, Effect.bodyClose]) ∧
    (∀ r, (opts.Format = ascii "XML" ∧ env.xmlDecode body = some r) ∨
        (opts.Format = ascii "JSON" ∧ env.jsonDecode body = some r) →
      Effect.writeHeader 503 ∉ h env req) ∧
    (∀ f r, c.options.version = 2 → c.options.v2ValidateServiceTicketCallback = some f →
      (opts.Format = ascii "XML" ∧ env.xmlDecode body = some r) ∨
        (opts.Format = ascii "JSON" ∧ env.jsonDecode body = some r) →
      h env req =
        [Effect.httpDo hc (ascii "GET") url, Effect.v2Callback f r, Effect.bodyClose]) := by
  have hne : ascii "JSON" ≠ ascii "XML" := by decide
  rw [ValidateServiceTicket_ok c opts h hh,
    validateHandler_accepted c opts env req hc url body hlen hpre hhc hurl hdo,
    parseResponse_v23 c opts env body hv]
  refine ⟨?_, ?_, ?_⟩
  · rintro (⟨hf, hd⟩ | ⟨hf, hd⟩)
    · simp [hf, hd]
    · simp [hf, hd, hne]
  · rintro r (⟨hf, hd⟩ | ⟨hf, hd⟩)
    · cases hcb : c.options.v2ValidateServiceTicketCallback <;> simp [hf, hd, callV2, hcb]
    · cases hcb : c.options.v2ValidateServiceTicketCallback <;>
        simp [hf, hd, callV2, hcb, hne]
  · rintro f r - hcb (⟨hf, hd⟩ | ⟨hf, hd⟩)
    · simp [hf, hd, callV2, hcb]
    · simp [hf, hd, callV2, hcb, hne]

/-- C8 amended, at the clients `NewClient` returns for versions 2 and 3 with a callback of
their version, `Format` XML. Version 2: the success document for `alice` is decoded and handed
to the callback; the body `<html/>`, which the decoder rejects, gives status 503. Version 3:
the body `<html/>` gives status 503, and the success document gives no status 503. -/
theorem structured_response_dispatch_witness :
    NewClient CASVersion2 (some exampleServerURL)
        [WithValidateServiceTicketCallback
          (CallbackValue.V2ValidateServiceTicketCallbackFunc (some 7))] =
      NewClientResult.ok exampleClientV2 ∧
    NewClient CASVersion3 (some exampleServerURL)
        [WithValidateServiceTicketCallback
          (CallbackValue.V3ValidateServiceTicketCallbackFunc (some 7))] =
      NewClientResult.ok exampleClientV3 ∧
    validateHandler exampleClientV2 { Format := ascii "XML" } (aliceEnv aliceXMLBody)
        (exampleRequest (ascii "ST-1234567890123")) =
      [Effect.httpDo HTTPClient.default (ascii "GET")
          (exampleSendURLV2 (ascii "ST-1234567890123") (ascii "XML")),
        Effect.v2Callback 7 aliceXMLResponse, Effect.bodyClose] ∧
    validateHandler exampleClientV2 { Format := ascii "XML" } (aliceEnv (ascii "<html/>"))
        (exampleRequest (ascii "ST-1234567890123")) =
      [Effect.httpDo HTTPClient.default (ascii "GET")
          (exampleSendURLV2 (ascii "ST-1234567890123") (ascii "XML")),
        Effect.writeHeader 503, Effect.bodyClose] ∧
    validateHandler exampleClientV3 { Format := ascii "XML" } (aliceEnv (ascii "<html/>"))
        (exampleRequest (ascii "ST-1234567890123")) =
      [Effect.httpDo HTTPClient.default (ascii "GET")
          (exampleSendURLV3 (ascii "ST-1234567890123") (ascii "XML")),
        Effect.writeHeader 503, Effect.bodyClose] ∧
    Effect.writeHeader 503 ∉
      validateHandler exampleClientV3 { Format := ascii "XML" } (aliceEnv aliceXMLBody)
        (exampleRequest (ascii "ST-1234567890123")) :=
  ⟨rfl, rfl,
   (structured_response_dispatch exampleClientV2 { Format := ascii "XML" }
      (aliceEnv aliceXMLBody) (exampleRequest (ascii "ST-1234567890123"))
      (validateHandler exampleClientV2 { Format := ascii "XML" }) HTTPClient.default
      (exampleSendURLV2 (ascii "ST-1234567890123") (ascii "XML")) { data := aliceXMLBody }
      rfl (by decide) (by decide) (by decide) rfl (by decide) rfl).2.2 7 aliceXMLResponse
      rfl rfl (Or.inl ⟨rfl, by decide⟩),
   (structured_response_dispatch exampleClientV2 { Format := ascii "XML" }
      (aliceEnv (ascii "<html/>")) (exampleRequest (ascii "ST-1234567890123"))
      (validateHandler exampleClientV2 { Format := ascii "XML" }) HTTPClient.default
      (exampleSendURLV2 (ascii "ST-1234567890123") (ascii "XML")) { data := ascii "<html/>" }
      rfl (by decide) (by decide) (by decide) rfl (by decide) rfl).1
      (Or.inl ⟨rfl, by decide⟩),
   (structured_response_dispatch exampleClientV3 { Format := ascii "XML" }
      (aliceEnv (ascii "<html/>")) (exampleRequest (ascii "ST-1234567890123"))
      (validateHandler exampleClientV3 { Format := ascii "XML" }) HTTPClient.default
      (exampleSendURLV3 (ascii "ST-1234567890123") (ascii "XML")) { data := ascii "<html/>" }
      rfl (by decide) (by decide) (by decide) rfl (by decide) rfl).1
      (Or.inl ⟨rfl, by decide⟩),
   (structured_response_dispatch exampleClientV3 { Format := ascii "XML" }
      (aliceEnv aliceXMLBody) (exampleRequest (ascii "ST-1234567890123"))
      (validateHandler exampleClientV3 { Format := ascii "XML" }) HTTPClient.default
      (exampleSendURLV3 (ascii "ST-1234567890123") (ascii "XML")) { data := aliceXMLBody }
      rfl (by decide) (by decide) (by decide) rfl (by decide) rfl).2.1 aliceXMLResponse
      (Or.inl ⟨rfl, by decide⟩)⟩

end Cas
